import Mathlib

/-! Screening-score calculator (`src/app.js`)

A shallow embedding of the calculator: the grade table, the two validators,
the score computation, the result/error display, the button, and the two
kinds of deferred callback (`setTimeout`).

Conventions of the embedding.

* A JavaScript number is a `JSNum`: `NaN`, the two infinities, or a finite
  value, kept as a rational.  `roundDouble` is rounding to the nearest binary64
  value (ties to even, gradual underflow, overflow to infinity); `Number` of a
  string rounds with it.  The sign of zero is not represented.
* The score formula of lines 119-121 is given in two readings.  `jambPercentOf`
  and `totalOf` compute with exact rationals, the reading in which the
  specification states the formula; `calculateScore` carries this one.
  `jambPercentDouble`, `olevelPointsDouble` and `totalDouble` round every
  arithmetic result, as the engine does.  Comparisons are exact in both.
* A DOM element that `getElementById` / `querySelector` may fail to find is an
  `Option`; `querySelectorAll` always yields a list.
* The text of a string built by `+` from a non-number is not tracked
  (`Value.str`); the markup written by `showResult` is kept as its arguments.
* Decorations of the input fields (`validateJambScore`, `validateGrades`) and
  console output do not influence any modelled value and are left out.
-/

namespace NewCal

/-! ## Numbers -/

/-- A JavaScript number. -/
inductive JSNum where
  | nan
  | negInf
  | fin (q : ℚ)
  | posInf
  deriving DecidableEq

namespace JSNum

/-- The test `isNaN(x)` on a number. -/
def isNaN : JSNum → Bool
  | nan => true
  | _ => false

/-- The comparison `x < y`; false when either side is `NaN`. -/
def lt : JSNum → JSNum → Bool
  | nan, _ => false
  | _, nan => false
  | negInf, negInf => false
  | negInf, _ => true
  | fin _, negInf => false
  | fin a, fin b => decide (a < b)
  | fin _, posInf => true
  | posInf, _ => false

/-- The comparison `x > y`. -/
def gt (x y : JSNum) : Bool := lt y x

/-- The comparison `x <= y`; false when either side is `NaN`. -/
def le : JSNum → JSNum → Bool
  | nan, _ => false
  | _, nan => false
  | negInf, _ => true
  | fin _, negInf => false
  | fin a, fin b => decide (a ≤ b)
  | fin _, posInf => true
  | posInf, posInf => true
  | posInf, _ => false

/-- The comparison `x >= y`. -/
def ge (x y : JSNum) : Bool := le y x

/-- The exact sum `x + y` of two numbers. -/
def add : JSNum → JSNum → JSNum
  | nan, _ => nan
  | _, nan => nan
  | posInf, negInf => nan
  | negInf, posInf => nan
  | posInf, _ => posInf
  | _, posInf => posInf
  | negInf, _ => negInf
  | _, negInf => negInf
  | fin a, fin b => fin (a + b)

/-- An infinity with the sign of `s * t`, where `s` is the sign of an infinity
(`true` for `+∞`) and `t` a non-zero finite factor. -/
def infOfSign (positive : Bool) : JSNum := if positive then posInf else negInf

/-- The exact product `x * y` of two numbers. -/
def mul : JSNum → JSNum → JSNum
  | nan, _ => nan
  | _, nan => nan
  | fin a, fin b => fin (a * b)
  | posInf, posInf => posInf
  | negInf, negInf => posInf
  | posInf, negInf => negInf
  | negInf, posInf => negInf
  | posInf, fin b => if b = 0 then nan else infOfSign (decide (0 < b))
  | negInf, fin b => if b = 0 then nan else infOfSign (decide (b < 0))
  | fin a, posInf => if a = 0 then nan else infOfSign (decide (0 < a))
  | fin a, negInf => if a = 0 then nan else infOfSign (decide (a < 0))

/-- The exact quotient `x / y` of two numbers (a zero divisor is taken as `+0`). -/
def div : JSNum → JSNum → JSNum
  | nan, _ => nan
  | _, nan => nan
  | fin a, fin b =>
    if b = 0 then (if a = 0 then nan else infOfSign (decide (0 < a))) else fin (a / b)
  | fin _, _ => fin 0
  | posInf, fin b => infOfSign (decide (0 ≤ b))
  | negInf, fin b => infOfSign (decide (b < 0))
  | _, _ => nan

end JSNum

/-! ## Rounding to a double -/

/-- Rounding of a rational to the nearest integer, a tie going to the even
one. -/
def roundHalfEven (x : ℚ) : ℤ :=
  let f := ⌊x⌋
  let r := x - f
  if r < 1 / 2 then f else if 1 / 2 < r then f + 1 else if f % 2 = 0 then f else f + 1

/-- The exponent of the spacing of binary64 values around a positive value:
53 significant bits in the normal range, the fixed spacing `2 ^ (-1074)` below
`2 ^ (-1022)`. -/
def quantumExp (q : ℚ) : ℤ := max (Int.log 2 q) (-1022) - 52

/-- The binary64 value nearest to a positive rational (ties to even); `+∞`
once the rounded value reaches `2 ^ 1024`. -/
def roundPos (q : ℚ) : JSNum :=
  let v := (roundHalfEven (q / 2 ^ quantumExp q) : ℚ) * 2 ^ quantumExp q
  if v < 2 ^ (1024 : ℕ) then JSNum.fin v else JSNum.posInf

/-- The binary64 value nearest to a rational: what an arithmetic operation or a
numeric literal with that exact value yields. -/
def roundDouble (q : ℚ) : JSNum :=
  if 0 < q then roundPos q
  else if q < 0 then
    match roundPos (-q) with
    | JSNum.fin v => JSNum.fin (-v)
    | _ => JSNum.negInf
  else JSNum.fin 0

/-- Rounding of the exact result of an operation: finite results go to the
nearest double, `NaN` and the infinities stay. -/
def JSNum.round : JSNum → JSNum
  | JSNum.fin q => roundDouble q
  | x => x

/-! ## `Number(string)` -/

/-- White space and line terminators stripped by `Number` from both ends. -/
def isStrWhiteSpace (c : Char) : Bool :=
  c.toNat ∈ [9, 10, 11, 12, 13, 32, 160, 5760, 8232, 8233, 8239, 8287, 12288, 65279]
    || (8192 ≤ c.toNat && c.toNat ≤ 8202)

/-- The value of a digit in the given radix, if the character is one. -/
def digitValue (radix : Nat) (c : Char) : Option Nat :=
  let n := c.toNat
  let v :=
    if 48 ≤ n ∧ n ≤ 57 then some (n - 48)
    else if 97 ≤ n ∧ n ≤ 102 then some (n - 87)
    else if 65 ≤ n ∧ n ≤ 70 then some (n - 55)
    else none
  match v with
  | some d => if d < radix then some d else none
  | none => none

/-- The value of a non-empty string of digits in the given radix. -/
def digitsValue (radix : Nat) : List Char → Nat → Option Nat
  | [], acc => some acc
  | c :: cs, acc =>
    match digitValue radix c with
    | some d => digitsValue radix cs (radix * acc + d)
    | none => none

/-- Splits off the longest prefix of decimal digits. -/
def spanDigits : List Char → List Char × List Char
  | [] => ([], [])
  | c :: cs =>
    if (digitValue 10 c).isSome then
      let r := spanDigits cs
      (c :: r.1, r.2)
    else ([], c :: cs)

/-- The exponent part of a decimal literal: empty, or `e`/`E`, an optional
sign and at least one digit. -/
def exponentValue : List Char → Option Int
  | [] => some 0
  | c :: cs =>
    if c.toNat = 101 ∨ c.toNat = 69 then
      let signed : Bool × List Char :=
        match cs with
        | d :: ds => if d.toNat = 45 then (true, ds) else if d.toNat = 43 then (false, ds) else (false, cs)
        | [] => (false, [])
      match signed.2 with
      | [] => none
      | ds =>
        match digitsValue 10 ds 0 with
        | some n => some (if signed.1 then -(n : Int) else (n : Int))
        | none => none
    else none

/-- An unsigned decimal literal: `Infinity`, or digits with an optional
fraction and exponent, rounded to the nearest double. -/
def unsignedDecimal (cs : List Char) : JSNum :=
  if cs = "Infinity".toList then JSNum.posInf
  else
    let ip := spanDigits cs
    let afterDot : Option (List Char × List Char) :=
      match ip.2 with
      | d :: ds => if d.toNat = 46 then some (spanDigits ds) else some ([], d :: ds)
      | [] => some ([], [])
    match afterDot with
    | none => JSNum.nan
    | some (fp, rest) =>
      if ip.1 = [] ∧ fp = [] then JSNum.nan
      else
        match digitsValue 10 (ip.1 ++ fp) 0, exponentValue rest with
        | some m, some e => roundDouble ((m : ℚ) / 10 ^ fp.length * 10 ^ e)
        | _, _ => JSNum.nan

/-- The numeric value of a string with white space already stripped. -/
def stringNumericLiteral (cs : List Char) : JSNum :=
  match cs with
  | [] => JSNum.fin 0
  | c :: rest =>
    if c.toNat = 45 then JSNum.mul (JSNum.fin (-1)) (unsignedDecimal rest)
    else if c.toNat = 43 then unsignedDecimal rest
    else
      let radix : Option Nat :=
        match rest with
        | p :: _ :: _ =>
          if c.toNat ≠ 48 then none
          else if p.toNat = 120 ∨ p.toNat = 88 then some 16
          else if p.toNat = 111 ∨ p.toNat = 79 then some 8
          else if p.toNat = 98 ∨ p.toNat = 66 then some 2
          else none
        | _ => none
      match radix with
      | some r =>
        match digitsValue r (rest.drop 1) 0 with
        | some n => roundDouble n
        | none => JSNum.nan
      | none => unsignedDecimal cs

/-- The conversion `Number(s)` of a string. -/
def toNumber (s : String) : JSNum :=
  let cs := s.toList.dropWhile isStrWhiteSpace
  stringNumericLiteral (cs.reverse.dropWhile isStrWhiteSpace).reverse

/-! ## Values and the grade table -/

/-- The values that can reach the grade-point sum: a number, a string built by
`+` (always non-empty here; its text is not tracked), an object or function
found on `Object.prototype`, or `undefined`. -/
inductive Value where
  | num (x : JSNum)
  | str
  | obj
  | undefined
  deriving DecidableEq

namespace Value

/-- Truthiness, as tested by `||`. -/
def truthy : Value → Bool
  | num x => !(x.isNaN) && x != JSNum.fin 0
  | str => true
  | obj => true
  | undefined => false

/-- The expression `a || b`. -/
def or (a b : Value) : Value := if a.truthy then a else b

/-- The expression `a + b`: numeric addition when neither side is a string or
an object, string concatenation otherwise. -/
def add : Value → Value → Value
  | num x, num y => num (x.add y)
  | num _, undefined => num JSNum.nan
  | undefined, num _ => num JSNum.nan
  | undefined, undefined => num JSNum.nan
  | _, _ => str

end Value

/-- The object literal of lines 2-5: own keys and their values. -/
def gradePoints : List (String × Int) :=
  [("A1", 8), ("B2", 7), ("B3", 6), ("C4", 5),
   ("C5", 4), ("C6", 3), ("D7", 2), ("E8", 1), ("F9", 0)]

/-- The property names every object literal inherits from `Object.prototype`;
each is bound to a function, `__proto__` to the prototype object. -/
def objectPrototypeKeys : List String :=
  ["constructor", "hasOwnProperty", "isPrototypeOf", "propertyIsEnumerable",
   "toLocaleString", "toString", "valueOf", "__proto__",
   "__defineGetter__", "__defineSetter__", "__lookupGetter__", "__lookupSetter__"]

/-- The property read `table[grade]`: an own key gives its number, an inherited
name gives the inherited member, anything else gives `undefined`. -/
def lookupGrade (table : List (String × Int)) (grade : String) : Value :=
  match table.lookup grade with
  | some n => Value.num (JSNum.fin n)
  | none => if grade ∈ objectPrototypeKeys then Value.obj else Value.undefined

/-- The reduce of lines 120, 159 and 269:
`grades.reduce((acc, grade) => acc + (gradePoints[grade] || 0), 0)`. -/
def olevelPointsOf (table : List (String × Int)) (grades : List String) : Value :=
  grades.foldl
    (fun acc grade => Value.add acc (Value.or (lookupGrade table grade) (Value.num (JSNum.fin 0))))
    (Value.num (JSNum.fin 0))

/-- The expression `(jamb * 60) / 400` of lines 119, 158 and 268, computed
exactly (see `jambPercentDouble` for the rounded computation). -/
def jambPercentOf (jamb : JSNum) : JSNum :=
  JSNum.div (JSNum.mul jamb (JSNum.fin 60)) (JSNum.fin 400)

/-- The expression `jambPercent + olevelPoints` of lines 121 and 270, computed
exactly (see `totalDouble` for the rounded computation). -/
def totalOf (table : List (String × Int)) (jamb : JSNum) (grades : List String) : Value :=
  Value.add (Value.num (jambPercentOf jamb)) (olevelPointsOf table grades)

/-! ## The same expressions in double arithmetic

`jambPercentOf` and `totalOf` above compute with exact rationals.  The
definitions below round every arithmetic result to the nearest double, as the
engine does. -/

/-- Rounding of the result of `+` when it is a number. -/
def Value.round : Value → Value
  | Value.num x => Value.num x.round
  | v => v

/-- The expression `(jamb * 60) / 400` in double arithmetic: the product is
rounded, then the quotient. -/
def jambPercentDouble (jamb : JSNum) : JSNum :=
  JSNum.round (JSNum.div (JSNum.round (JSNum.mul jamb (JSNum.fin 60))) (JSNum.fin 400))

/-- The reduce of line 120 in double arithmetic: every partial sum is rounded. -/
def olevelPointsDouble (table : List (String × Int)) (grades : List String) : Value :=
  grades.foldl
    (fun acc grade => Value.round (Value.add acc
      (Value.or (lookupGrade table grade) (Value.num (JSNum.fin 0)))))
    (Value.num (JSNum.fin 0))

/-- The expression `jambPercent + olevelPoints` in double arithmetic. -/
def totalDouble (table : List (String × Int)) (jamb : JSNum) (grades : List String) : Value :=
  Value.round (Value.add (Value.num (jambPercentDouble jamb)) (olevelPointsDouble table grades))

/-! ## Page state -/

/-- What `resultDiv.innerHTML` holds: nothing, an error message, or the markup
of `showResult` (kept as the values it interpolates). -/
inductive Html where
  | empty
  | text (message : String)
  | result (total jamb jambPercent : JSNum) (olevelPoints : Value)
  deriving DecidableEq

/-- The result area: its content and the tokens of its `className`. -/
structure ResultDiv where
  innerHTML : Html
  className : List String
  deriving DecidableEq

/-- The calculate button: whether its class list holds `loading`, its
`disabled` flag and its label. -/
structure Button where
  loading : Bool
  disabled : Bool
  textContent : String
  deriving DecidableEq

/-- The two callbacks the program hands to `setTimeout`. -/
inductive Task where
  | calculate
  | clearError
  deriving DecidableEq

/-- A pending `setTimeout`: the time it is due and its callback. -/
structure Timer where
  due : Nat
  task : Task
  deriving DecidableEq

/-- The module-level state: the grade table object, the cached elements
(`null` when the page lacks one), the clock in milliseconds and the pending
timers in the order they were scheduled. -/
structure App where
  gradePoints : List (String × Int)
  jambInput : Option String
  gradeSelects : List String
  calculateBtn : Option Button
  resultDiv : Option ResultDiv
  now : Nat
  timers : List Timer
  deriving DecidableEq

/-- The message of `validateJambInput`. -/
def scoreMessage : String := "Please enter a valid JAMB score between 0 and 400."

/-- The message of `validateGradeSelections`. -/
def gradesMessage : String := "Please select all 5 O'Level grades."

/-- The function `setTimeout(task, delay)`: appended to the pending timers. -/
def setTimeout (task : Task) (delay : Nat) (st : App) : App :=
  { st with timers := st.timers ++ [{ due := st.now + delay, task := task }] }

/-- The function `showError` (lines 179-193). -/
def showError (message : String) (st : App) : App :=
  match st.resultDiv with
  | some _ =>
    setTimeout Task.clearError 5000
      { st with resultDiv := some { innerHTML := Html.text message,
                                    className := ["result-display", "error", "show"] } }
  | none => st

/-- The callback of lines 186-191, run when an error-clear timer fires. -/
def clearErrorCallback (st : App) : App :=
  match st.resultDiv with
  | some d =>
    if d.className.contains "error" then
      { st with resultDiv := some { innerHTML := Html.empty, className := ["result-display"] } }
    else st
  | none => st

/-- The function `showLoading` (lines 77-87). -/
def showLoading (st : App) : App :=
  let st1 : App :=
    match st.calculateBtn with
    | some _ =>
      { st with
        calculateBtn := some { loading := true, disabled := true, textContent := "Calculating..." } }
    | none => st
  match st1.resultDiv with
  | some _ =>
    { st1 with resultDiv := some { innerHTML := Html.empty, className := ["result-display"] } }
  | none => st1

/-- The function `hideLoading` (lines 89-95). -/
def hideLoading (st : App) : App :=
  match st.calculateBtn with
  | some _ =>
    { st with
      calculateBtn := some { loading := false, disabled := false, textContent := "Calculate Score" } }
  | none => st

/-- The function `handleFormSubmit` (lines 64-75). -/
def handleFormSubmit (st : App) : App :=
  setTimeout Task.calculate 300 (showLoading st)

/-- The function `validateJambInput` (lines 130-136): the returned flag and
the state after it. -/
def validateJambInput (jamb : JSNum) (st : App) : Bool × App :=
  if jamb.isNaN || jamb.lt (JSNum.fin 0) || jamb.gt (JSNum.fin 400) then
    (false, showError scoreMessage st)
  else (true, st)

/-- The function `getSelectedGrades` (lines 138-146). -/
def getSelectedGrades (st : App) : List String := st.gradeSelects

/-- The function `validateGradeSelections` (lines 148-155); `!grade` holds of
a string exactly when it is empty. -/
def validateGradeSelections (grades : List String) (st : App) : Bool × App :=
  let emptyGrades := (grades.filter (fun grade => grade == "")).length
  if emptyGrades > 0 then (false, showError gradesMessage st)
  else (true, st)

/-- The function `showResult` (lines 157-177).  `total.toFixed(2)` is evaluated
before anything is written: when `total` is not a number it raises a
`TypeError` (`none`) and the page is left as it was. -/
def showResult (total : Value) (jamb : JSNum) (grades : List String) (st : App) : Option App :=
  let jambPercent := jambPercentOf jamb
  let olevelPoints := olevelPointsOf st.gradePoints grades
  match total with
  | Value.num t =>
    match st.resultDiv with
    | some _ =>
      some { st with
        resultDiv := some { innerHTML := Html.result t jamb jambPercent olevelPoints,
                            className := ["result-display", "show"] } }
    | none => some st
  | _ => none

/-- The expression `Number(jambInput?.value || 0)` of line 101: a missing
element or an empty value gives `0`. -/
def readJamb (st : App) : JSNum :=
  match st.jambInput with
  | some v => if v != "" then toNumber v else JSNum.fin 0
  | none => JSNum.fin 0

/-- How a run of `calculateScore` ends: at the `return` of line 106, at the
`return` of line 115, or with the call `showResult(total, jamb, grades)` of
line 126. -/
inductive Outcome where
  | scoreError
  | gradesError
  | result (total : Value)
  deriving DecidableEq

/-- The function `calculateScore` (lines 97-128): how it ends and the state it
leaves.  When `showResult` raises, line 127 is not reached. -/
def calculateScore (st : App) : Outcome × App :=
  let jamb := readJamb st
  match validateJambInput jamb st with
  | (false, st1) => (Outcome.scoreError, hideLoading st1)
  | (true, st1) =>
    let grades := getSelectedGrades st1
    match validateGradeSelections grades st1 with
    | (false, st2) => (Outcome.gradesError, hideLoading st2)
    | (true, st2) =>
      let total := totalOf st2.gradePoints jamb grades
      match showResult total jamb grades st2 with
      | some st3 => (Outcome.result total, hideLoading st3)
      | none => (Outcome.result total, st2)

/-- The function `updateFormValidity` (lines 224-231). -/
def updateFormValidity (st : App) : App :=
  match st.calculateBtn, st.jambInput with
  | some b, some v =>
    let jambValid :=
      v != "" && (toNumber v).ge (JSNum.fin 0) && (toNumber v).le (JSNum.fin 400)
    let gradesValid := st.gradeSelects.all (fun value => value != "")
    { st with calculateBtn := some { b with disabled := !(jambValid && gradesValid) } }
  | _, _ => st

/-- The input formatter of lines 252-260: digits only, at most three. -/
def formatInput (v : String) : String :=
  let digits := v.toList.filter (fun c => 48 ≤ c.toNat && c.toNat ≤ 57)
  String.mk (if digits.length > 3 then digits.take 3 else digits)

/-- The function `window.testCalculation` (lines 265-281): the value returned. -/
def testCalculation (st : App) : Value :=
  totalOf st.gradePoints (JSNum.fin 250) ["A1", "B2", "C4", "B3", "C5"]

/-! ## Events and timers -/

/-- What can happen to the page: the form is submitted, the user edits the
exam-score field or one grade selector, time passes, or the next due timer
fires. -/
inductive Event where
  | submit
  | input (v : String)
  | change (i : Nat) (grade : String)
  | wait (d : Nat)
  | fire
  deriving DecidableEq

/-- The pending timer that fires next: the least due time, the one scheduled
first among equals. -/
def nextTimer : List Timer → Option Timer
  | [] => none
  | t :: ts =>
    match nextTimer ts with
    | none => some t
    | some u => if t.due ≤ u.due then some t else some u

/-- Runs the callback of a timer. -/
def runTask (task : Task) (st : App) : App :=
  match task with
  | Task.calculate => (calculateScore st).2
  | Task.clearError => clearErrorCallback st

/-- One event.  `none` when the event cannot happen in this state: an edit of
an element the page lacks, a wait that would pass a due timer, a firing with no
timer due. -/
def step (st : App) : Event → Option App
  | Event.submit => some (handleFormSubmit st)
  | Event.input v =>
    match st.jambInput with
    | some _ =>
      let st1 := updateFormValidity { st with jambInput := some v }
      some { st1 with jambInput := some (formatInput v) }
    | none => none
  | Event.change i grade =>
    if i < st.gradeSelects.length then
      some (updateFormValidity { st with gradeSelects := st.gradeSelects.set i grade })
    else none
  | Event.wait d =>
    if st.timers.all (fun t => st.now + d ≤ t.due) then some { st with now := st.now + d }
    else none
  | Event.fire =>
    match nextTimer st.timers with
    | some t =>
      if t.due ≤ st.now then some (runTask t.task { st with timers := st.timers.erase t })
      else none
    | none => none

/-- A sequence of events. -/
def run (st : App) : List Event → Option App
  | [] => some st
  | e :: es =>
    match step st e with
    | some st1 => run st1 es
    | none => none

/-- The page after `initializeElements` and `initializeForm` (lines 17-41) when
every element is found: five empty grade selectors, an empty exam-score field,
an empty result area and the button as the markup leaves it. -/
def initialApp : App :=
  { gradePoints := gradePoints
    jambInput := some ""
    gradeSelects := ["", "", "", "", ""]
    calculateBtn := some { loading := false, disabled := false, textContent := "Calculate Score" }
    resultDiv := some { innerHTML := Html.empty, className := ["result-display"] }
    now := 0
    timers := [] }

/-! ## Reference quantities and concrete pages -/

/-- The table value of a grade when it is an own key, and 0 otherwise: the
summand the specification assigns to a grade. -/
def pointsOf (table : List (String × Int)) (grade : String) : Int :=
  (table.lookup grade).getD 0

/-- A page with the exam score 250 typed and the grades A1, B2, C4, B3, C5
selected. -/
def exampleApp : App :=
  { initialApp with jambInput := some "250", gradeSelects := ["A1", "B2", "C4", "B3", "C5"] }

/-- A page in the loading state of a submit whose first grade selector holds
the value `constructor`, with 250 typed. -/
def inheritedNameApp : App :=
  { initialApp with
    jambInput := some "250"
    gradeSelects := ["constructor", "A1", "A1", "A1", "A1"]
    calculateBtn := some { loading := true, disabled := true, textContent := "Calculating..." } }

/-- The same page before the submit: the button idle and enabled. -/
def inheritedNameIdleApp : App :=
  { initialApp with
    jambInput := some "250"
    gradeSelects := ["constructor", "A1", "A1", "A1", "A1"] }

/-- A page with the exam-score field left empty and A1 selected five times. -/
def emptyScoreApp : App :=
  { initialApp with gradeSelects := ["A1", "A1", "A1", "A1", "A1"] }

/-- A page with `-5` in the exam-score field and no grade selected. -/
def minusFiveApp : App :=
  { initialApp with jambInput := some "-5" }

/-- A message in the result area, if any, is one of the two messages of the
program. -/
def knownDisplay (st : App) : Prop :=
  ∀ (msg : String) (cls : List String),
    st.resultDiv = some { innerHTML := Html.text msg, className := cls } →
      msg = scoreMessage ∨ msg = gradesMessage

/-! ## Properties of rounding -/

/-- Rounding to the nearest integer never goes below the floor. -/
theorem floor_le_roundHalfEven (x : ℚ) : ⌊x⌋ ≤ roundHalfEven x := by
  unfold roundHalfEven
  simp only []
  split_ifs <;> omega

/-- Rounding a value that is at most an integer gives at most that integer. -/
theorem roundHalfEven_le (x : ℚ) (n : ℤ) (h : x ≤ n) : roundHalfEven x ≤ n := by
  have hf : ⌊x⌋ ≤ n := by
    have := Int.floor_le x
    exact_mod_cast (le_trans this h)
  by_cases hr : x - ⌊x⌋ < 1 / 2
  · unfold roundHalfEven
    simp only []
    rw [if_pos hr]; exact hf
  · have hlt : (⌊x⌋ : ℚ) < x := by linarith
    have : (⌊x⌋ : ℚ) < n := lt_of_lt_of_le hlt h
    have : ⌊x⌋ < n := by exact_mod_cast this
    unfold roundHalfEven
    simp only []
    split_ifs <;> omega

/-- Rounding a value that is at least an integer gives at least that integer. -/
theorem le_roundHalfEven (x : ℚ) (n : ℤ) (h : (n : ℚ) ≤ x) : n ≤ roundHalfEven x :=
  le_trans (Int.le_floor.mpr h) (floor_le_roundHalfEven x)

/-- An integer rounds to itself. -/
theorem roundHalfEven_int (n : ℤ) : roundHalfEven (n : ℚ) = n := by
  simp [roundHalfEven]

/-- A value within less than one half of an integer rounds to it. -/
theorem roundHalfEven_near (x : ℚ) (n : ℤ) (h1 : (n : ℚ) - 1 / 2 < x) (h2 : x < n + 1 / 2) :
    roundHalfEven x = n := by
  by_cases hx : (n : ℚ) ≤ x
  · have hf : ⌊x⌋ = n := Int.floor_eq_iff.mpr ⟨hx, by linarith⟩
    have hr : x - (n : ℚ) < 1 / 2 := by linarith
    unfold roundHalfEven
    simp only [hf]
    rw [if_pos hr]
  · have hf : ⌊x⌋ = n - 1 := Int.floor_eq_iff.mpr ⟨by push_cast; linarith, by push_cast; linarith⟩
    have hr : ¬ (x - ((n - 1 : ℤ) : ℚ) < 1 / 2) := by push_cast; linarith
    have hr2 : (1 : ℚ) / 2 < x - ((n - 1 : ℤ) : ℚ) := by push_cast; linarith
    simp only [roundHalfEven, hf, hr, hr2, if_true, if_false]
    omega

/-- A value halfway above an odd integer rounds up to the even one. -/
theorem roundHalfEven_tie_odd (f : ℤ) (hodd : f % 2 = 1) :
    roundHalfEven ((f : ℚ) + 1 / 2) = f + 1 := by
  have hf : ⌊(f : ℚ) + 1 / 2⌋ = f := Int.floor_eq_iff.mpr ⟨by linarith, by linarith⟩
  have h0 : ¬ (f % 2 = 0) := by omega
  have h1 : ¬ ((f : ℚ) + 1 / 2 - f < 1 / 2) := by norm_num
  have h2 : ¬ ((1 : ℚ) / 2 < (f : ℚ) + 1 / 2 - f) := by norm_num
  unfold roundHalfEven
  simp only [hf]
  rw [if_neg h1, if_neg h2, if_neg h0]

/-- The quantum exponent, from the binade of a normal value. -/
theorem quantumExp_of_binade (x : ℚ) (e : ℤ) (hx : 0 < x) (h1 : (2 : ℚ) ^ e ≤ x)
    (h2 : x < (2 : ℚ) ^ (e + 1)) (he : -1022 ≤ e) : quantumExp x = e - 52 := by
  have hlog : Int.log 2 x = e := by
    apply le_antisymm
    · have := (Int.lt_zpow_iff_log_lt (b := 2) (by norm_num) hx (x := e + 1)).mp (by simpa using h2)
      omega
    · exact (Int.zpow_le_iff_le_log (b := 2) (by norm_num) hx).mp (by simpa using h1)
  unfold quantumExp
  rw [hlog, max_eq_left he]

/-- The quantum exponent is at most `j` for values below `2 ^ (j + 53)`. -/
theorem quantumExp_le (x : ℚ) (j : ℤ) (hx : 0 < x) (hj : -1074 ≤ j)
    (hlt : x < (2 : ℚ) ^ (j + 53)) : quantumExp x ≤ j := by
  have := (Int.lt_zpow_iff_log_lt (b := 2) (by norm_num) hx (x := j + 53)).mp (by simpa using hlt)
  unfold quantumExp
  rcases max_cases (Int.log 2 x) (-1022) with ⟨h, _⟩ | ⟨h, _⟩ <;> rw [h] <;> omega

/-- A multiple of `2 ^ j` is a multiple of `2 ^ k` for `k ≤ j`. -/
theorem grid_of_le (c j k : ℤ) (h : k ≤ j) : ∃ n : ℤ, (c : ℚ) * 2 ^ j = n * 2 ^ k := by
  refine ⟨c * 2 ^ (j - k).toNat, ?_⟩
  have h2 : (2 : ℚ) ^ j = 2 ^ ((j - k).toNat : ℤ) * 2 ^ k := by
    rw [← zpow_add₀ (by norm_num : (2 : ℚ) ≠ 0), Int.toNat_of_nonneg (by omega)]
    congr 1; omega
  rw [h2, zpow_natCast]
  push_cast
  ring

/-- Rounding a positive value that is at most a double on its own grid gives a
finite value that is at most that double. -/
theorem roundPos_le (x Y : ℚ) (hx : 0 < x) (hxy : x ≤ Y)
    (hY : ∃ n : ℤ, Y = n * 2 ^ quantumExp x) (hfin : Y < 2 ^ (1024 : ℕ)) :
    ∃ v, roundPos x = JSNum.fin v ∧ 0 ≤ v ∧ v ≤ Y := by
  obtain ⟨n, hn⟩ := hY
  have hpos : (0 : ℚ) < 2 ^ quantumExp x := zpow_pos (by norm_num) _
  have hdiv : x / 2 ^ quantumExp x ≤ n := by
    rw [div_le_iff₀ hpos, ← hn]; exact hxy
  have hm : roundHalfEven (x / 2 ^ quantumExp x) ≤ n := roundHalfEven_le _ _ hdiv
  have hm0 : 0 ≤ roundHalfEven (x / 2 ^ quantumExp x) :=
    le_roundHalfEven _ 0 (by simpa using (div_pos hx hpos).le)
  have hv : (roundHalfEven (x / 2 ^ quantumExp x) : ℚ) * 2 ^ quantumExp x ≤ Y := by
    rw [hn]
    exact mul_le_mul_of_nonneg_right (by exact_mod_cast hm) hpos.le
  refine ⟨(roundHalfEven (x / 2 ^ quantumExp x) : ℚ) * 2 ^ quantumExp x, ?_, ?_, hv⟩
  · unfold roundPos
    simp only []
    rw [if_pos (lt_of_le_of_lt hv hfin)]
  · exact mul_nonneg (by exact_mod_cast hm0) hpos.le

/-- Rounding a positive value on its own grid returns it unchanged. -/
theorem roundPos_exact (x : ℚ) (hg : ∃ n : ℤ, x = n * 2 ^ quantumExp x)
    (hfin : x < 2 ^ (1024 : ℕ)) : roundPos x = JSNum.fin x := by
  obtain ⟨n, hn⟩ := hg
  have hpos : (0 : ℚ) < 2 ^ quantumExp x := zpow_pos (by norm_num) _
  have hdiv : x / 2 ^ quantumExp x = n := by
    rw [div_eq_iff hpos.ne']; exact hn
  unfold roundPos
  simp only []
  rw [hdiv, roundHalfEven_int, ← hn, if_pos hfin]

/-- Rounding a value of at least `2 ^ j`, a normal double, gives at least
`2 ^ j`. -/
theorem roundPos_ge (x : ℚ) (j : ℤ) (v : ℚ) (hx : 0 < x) (h : (2 : ℚ) ^ j ≤ x) (hj : -1022 ≤ j)
    (hv : roundPos x = JSNum.fin v) : (2 : ℚ) ^ j ≤ v := by
  have hlog : j ≤ Int.log 2 x :=
    (Int.zpow_le_iff_le_log (b := 2) (by norm_num) hx).mp (by simpa using h)
  have hq : quantumExp x = Int.log 2 x - 52 := by
    unfold quantumExp; rw [max_eq_left (by omega)]
  have hpos : (0 : ℚ) < 2 ^ quantumExp x := zpow_pos (by norm_num) _
  have hle : (2 : ℚ) ^ Int.log 2 x ≤ x := by
    simpa using Int.zpow_log_le_self (b := 2) (by norm_num) hx
  have hsplit : (2 : ℚ) ^ Int.log 2 x = ((2 ^ 52 : ℤ) : ℚ) * 2 ^ quantumExp x := by
    have hc : ((2 ^ 52 : ℤ) : ℚ) = (2 : ℚ) ^ (52 : ℤ) := by norm_num
    rw [hq, hc, ← zpow_add₀ (by norm_num : (2 : ℚ) ≠ 0)]
    congr 1; omega
  have hdiv : ((2 ^ 52 : ℤ) : ℚ) ≤ x / 2 ^ quantumExp x := by
    rw [le_div_iff₀ hpos, ← hsplit]; exact hle
  have hm := le_roundHalfEven _ _ hdiv
  unfold roundPos at hv
  simp only [] at hv
  split_ifs at hv
  injection hv with hv
  rw [← hv]
  calc (2 : ℚ) ^ j ≤ 2 ^ Int.log 2 x := zpow_le_zpow_right₀ (by norm_num) hlog
    _ = ((2 ^ 52 : ℤ) : ℚ) * 2 ^ quantumExp x := hsplit
    _ ≤ (roundHalfEven (x / 2 ^ quantumExp x) : ℚ) * 2 ^ quantumExp x :=
        mul_le_mul_of_nonneg_right (by exact_mod_cast hm) hpos.le

/-- Zero is a double. -/
theorem roundDouble_zero : roundDouble 0 = JSNum.fin 0 := by
  simp [roundDouble]

/-- Rounding a value between 0 and a double `c * 2 ^ j` of its own binade or
coarser gives a finite value in the same range. -/
theorem roundDouble_le (x : ℚ) (c j : ℤ) (hx0 : 0 ≤ x) (hxy : x ≤ c * 2 ^ j) (hj : -1074 ≤ j)
    (hlt : x < (2 : ℚ) ^ (j + 53)) (hfin : (c : ℚ) * 2 ^ j < 2 ^ (1024 : ℕ)) :
    ∃ v, roundDouble x = JSNum.fin v ∧ 0 ≤ v ∧ v ≤ c * 2 ^ j := by
  rcases eq_or_lt_of_le hx0 with h | h
  · subst h
    exact ⟨0, roundDouble_zero, le_refl _, hxy⟩
  · have hr : roundDouble x = roundPos x := by simp [roundDouble, h]
    rw [hr]
    exact roundPos_le x _ h hxy (grid_of_le c j _ (quantumExp_le x j h hj hlt)) hfin

/-- Rounding a value of at least `2 ^ j`, a normal double, gives at least
`2 ^ j`. -/
theorem roundDouble_ge (x : ℚ) (j : ℤ) (v : ℚ) (h : (2 : ℚ) ^ j ≤ x) (hj : -1022 ≤ j)
    (hv : roundDouble x = JSNum.fin v) : (2 : ℚ) ^ j ≤ v := by
  have hx : 0 < x := lt_of_lt_of_le (zpow_pos (by norm_num) _) h
  have hr : roundDouble x = roundPos x := by simp [roundDouble, hx]
  rw [hr] at hv
  exact roundPos_ge x j v hx h hj hv

/-- A natural number below `2 ^ 53` is a double. -/
theorem roundDouble_nat (n : ℕ) (h : n < 2 ^ 53) : roundDouble (n : ℚ) = JSNum.fin n := by
  rcases Nat.eq_zero_or_pos n with h0 | h0
  · subst h0; simpa using roundDouble_zero
  · have hx : (0 : ℚ) < n := by exact_mod_cast h0
    have hr : roundDouble (n : ℚ) = roundPos n := by simp [roundDouble, hx]
    have hlt : (n : ℚ) < (2 : ℚ) ^ ((0 : ℤ) + 53) := by
      have h53 : (2 : ℚ) ^ ((0 : ℤ) + 53) = ((2 ^ 53 : ℕ) : ℚ) := by norm_num
      rw [h53]
      exact_mod_cast h
    have hq := quantumExp_le (n : ℚ) 0 hx (by norm_num) hlt
    obtain ⟨m, hm⟩ := grid_of_le (n : ℤ) 0 _ hq
    rw [hr]
    refine roundPos_exact _ ⟨m, by simpa using hm⟩ ?_
    calc (n : ℚ) < (2 : ℚ) ^ ((0 : ℤ) + 53) := hlt
      _ ≤ 2 ^ (1024 : ℕ) := by norm_num

/-- The string `250` converts to 250. -/
theorem toNumber_250 : toNumber "250" = JSNum.fin 250 := by
  have h := roundDouble_nat 250 (by norm_num)
  simp [toNumber, stringNumericLiteral, unsignedDecimal, spanDigits, digitValue, digitsValue,
    exponentValue, isStrWhiteSpace]
  simpa using h

/-- The string `-5` converts to -5. -/
theorem toNumber_minus_5 : toNumber "-5" = JSNum.fin (-5) := by
  have h := roundDouble_nat 5 (by norm_num)
  simp [toNumber, stringNumericLiteral, unsignedDecimal, spanDigits, digitValue, digitsValue,
    exponentValue, isStrWhiteSpace]
  have h5 : roundDouble 5 = JSNum.fin 5 := by simpa using h
  rw [h5]
  simp [JSNum.mul]

/-! ## Frame lemmas: which fields each operation leaves alone -/

@[simp] theorem setTimeout_gradePoints (task : Task) (delay : Nat) (st : App) :
    (setTimeout task delay st).gradePoints = st.gradePoints := rfl

@[simp] theorem showError_gradePoints (message : String) (st : App) :
    (showError message st).gradePoints = st.gradePoints := by
  unfold showError; cases st.resultDiv <;> rfl

@[simp] theorem clearErrorCallback_gradePoints (st : App) :
    (clearErrorCallback st).gradePoints = st.gradePoints := by
  unfold clearErrorCallback; cases st.resultDiv <;> simp; split <;> rfl

@[simp] theorem showLoading_gradePoints (st : App) :
    (showLoading st).gradePoints = st.gradePoints := by
  unfold showLoading; cases hb : st.calculateBtn <;> cases hr : st.resultDiv <;> simp [hr]

@[simp] theorem hideLoading_gradePoints (st : App) :
    (hideLoading st).gradePoints = st.gradePoints := by
  unfold hideLoading; cases st.calculateBtn <;> rfl

@[simp] theorem updateFormValidity_gradePoints (st : App) :
    (updateFormValidity st).gradePoints = st.gradePoints := by
  unfold updateFormValidity; cases st.calculateBtn <;> cases st.jambInput <;> rfl

theorem showResult_gradePoints (total : Value) (jamb : JSNum) (grades : List String)
    (st st1 : App) (h : showResult total jamb grades st = some st1) :
    st1.gradePoints = st.gradePoints := by
  unfold showResult at h
  cases total <;> simp at h
  cases hr : st.resultDiv <;> simp [hr] at h <;> subst h <;> rfl

/-- The three branches of `calculateScore`, by the flags of the two validators. -/
theorem calculateScore_eq (st : App) :
    calculateScore st =
      if (validateJambInput (readJamb st) st).1 = false then
        (Outcome.scoreError, hideLoading (showError scoreMessage st))
      else if (validateGradeSelections st.gradeSelects st).1 = false then
        (Outcome.gradesError, hideLoading (showError gradesMessage st))
      else
        match showResult (totalOf st.gradePoints (readJamb st) st.gradeSelects)
            (readJamb st) st.gradeSelects st with
        | some st3 =>
          (Outcome.result (totalOf st.gradePoints (readJamb st) st.gradeSelects), hideLoading st3)
        | none => (Outcome.result (totalOf st.gradePoints (readJamb st) st.gradeSelects), st) := by
  by_cases h1 : ((readJamb st).isNaN || (readJamb st).lt (JSNum.fin 0)
      || (readJamb st).gt (JSNum.fin 400)) = true
  · simp [calculateScore, validateJambInput, h1]
  · by_cases h2 : (List.filter (fun grade => grade == "") st.gradeSelects).length > 0
    · simp [calculateScore, validateJambInput, validateGradeSelections, getSelectedGrades, h1, h2]
    · simp [calculateScore, validateJambInput, validateGradeSelections, getSelectedGrades, h1, h2]

@[simp] theorem calculateScore_gradePoints (st : App) :
    (calculateScore st).2.gradePoints = st.gradePoints := by
  rw [calculateScore_eq]
  split_ifs
  · simp
  · simp
  · cases hs : showResult (totalOf st.gradePoints (readJamb st) st.gradeSelects)
        (readJamb st) st.gradeSelects st with
    | none => simp
    | some st3 => simpa using showResult_gradePoints _ _ _ _ _ hs

theorem step_gradePoints (st st1 : App) (e : Event) (h : step st e = some st1) :
    st1.gradePoints = st.gradePoints := by
  cases e with
  | submit => simp [step, handleFormSubmit] at h; subst h; simp
  | input v =>
    cases hj : st.jambInput <;> simp [step, hj] at h
    subst h; simp
  | change i grade =>
    simp [step] at h
    obtain ⟨_, h⟩ := h
    subst h; simp
  | wait d =>
    simp [step] at h
    obtain ⟨_, h⟩ := h
    subst h; rfl
  | fire =>
    cases hn : nextTimer st.timers with
    | none => simp [step, hn] at h
    | some t =>
      simp [step, hn] at h
      obtain ⟨_, h⟩ := h
      subst h
      cases t.task <;> simp [runTask]

theorem run_gradePoints (evs : List Event) :
    ∀ st st1 : App, run st evs = some st1 → st1.gradePoints = st.gradePoints := by
  induction evs with
  | nil => intro st st1 h; simp [run] at h; subst h; rfl
  | cons e es ih =>
    intro st st1 h
    cases hs : step st e with
    | none => simp [run, hs] at h
    | some st2 =>
      simp [run, hs] at h
      rw [ih st2 st1 h, step_gradePoints st st2 e hs]

/-! ## The grade table (C5) -/

/-- C5: the grade table has exactly the nine keys A1, B2, B3, C4, C5, C6, D7,
E8, F9, each once; every value is an integer between 0 and 8; the values are
pairwise distinct, so each of 0, ..., 8 is the value of exactly one key, from
A1 = 8 down to F9 = 0; and no event of the program changes the table: it is
the same after every step and in every state reached from the initial page. -/
theorem gradePoints_fixed_bijection :
    gradePoints.map Prod.fst = ["A1", "B2", "B3", "C4", "C5", "C6", "D7", "E8", "F9"]
    ∧ (gradePoints.map Prod.fst).Nodup
    ∧ (∀ kv ∈ gradePoints, 0 ≤ kv.2 ∧ kv.2 ≤ 8)
    ∧ (gradePoints.map Prod.snd).Nodup
    ∧ (∀ n : Int, 0 ≤ n → n ≤ 8 → ∃! k : String, (k, n) ∈ gradePoints)
    ∧ gradePoints.map Prod.snd = [8, 7, 6, 5, 4, 3, 2, 1, 0]
    ∧ (∀ (st st1 : App) (e : Event), step st e = some st1 → st1.gradePoints = st.gradePoints)
    ∧ (∀ (evs : List Event) (st : App),
        run initialApp evs = some st → st.gradePoints = gradePoints) := by
  refine ⟨by decide, by decide, by decide, by decide, ?_, by decide, ?_, ?_⟩
  · intro n h0 h8
    have hn : n = 0 ∨ n = 1 ∨ n = 2 ∨ n = 3 ∨ n = 4 ∨ n = 5 ∨ n = 6 ∨ n = 7 ∨ n = 8 := by omega
    rcases hn with h | h | h | h | h | h | h | h | h <;> subst h
    · exact ⟨"F9", by decide, by intro k hk; simp [gradePoints] at hk; exact hk⟩
    · exact ⟨"E8", by decide, by intro k hk; simp [gradePoints] at hk; exact hk⟩
    · exact ⟨"D7", by decide, by intro k hk; simp [gradePoints] at hk; exact hk⟩
    · exact ⟨"C6", by decide, by intro k hk; simp [gradePoints] at hk; exact hk⟩
    · exact ⟨"C5", by decide, by intro k hk; simp [gradePoints] at hk; exact hk⟩
    · exact ⟨"C4", by decide, by intro k hk; simp [gradePoints] at hk; exact hk⟩
    · exact ⟨"B3", by decide, by intro k hk; simp [gradePoints] at hk; exact hk⟩
    · exact ⟨"B2", by decide, by intro k hk; simp [gradePoints] at hk; exact hk⟩
    · exact ⟨"A1", by decide, by intro k hk; simp [gradePoints] at hk; exact hk⟩
  · exact fun st st1 e h => step_gradePoints st st1 e h
  · intro evs st h
    exact run_gradePoints evs initialApp st h

/-- C5 at a concrete run: after a submit and the deferred calculation the table
is still the literal of lines 2-5, and 8 is the value of exactly one key. -/
theorem gradePoints_fixed_bijection_witness :
    (∃! k : String, (k, (8 : Int)) ∈ gradePoints)
    ∧ (∀ st : App, run initialApp [Event.submit, Event.wait 300, Event.fire] = some st →
        st.gradePoints = gradePoints) :=
  ⟨gradePoints_fixed_bijection.2.2.2.2.1 8 (by decide) (by decide),
   fun st h => gradePoints_fixed_bijection.2.2.2.2.2.2.2 _ st h⟩

/-! ## The validators (C2, C4) -/

/-- What `showError` leaves in the result area when the page has one. -/
theorem showError_resultDiv (message : String) (st : App) (d : ResultDiv)
    (h : st.resultDiv = some d) :
    (showError message st).resultDiv =
      some { innerHTML := Html.text message, className := ["result-display", "error", "show"] } := by
  simp [showError, h, setTimeout]

/-- The flag of `validateJambInput`: true exactly on a finite value in [0, 400]. -/
theorem validateJambInput_fst (x : JSNum) (st : App) :
    (validateJambInput x st).1 = true ↔ ∃ q : ℚ, x = JSNum.fin q ∧ 0 ≤ q ∧ q ≤ 400 := by
  cases x with
  | nan => simp [validateJambInput, JSNum.isNaN]
  | negInf => simp [validateJambInput, JSNum.isNaN, JSNum.lt]
  | posInf => simp [validateJambInput, JSNum.isNaN, JSNum.lt, JSNum.gt]
  | fin q =>
    by_cases h0 : q < 0
    · have : ¬ (0 ≤ q) := not_le.mpr h0
      simp [validateJambInput, JSNum.isNaN, JSNum.lt, JSNum.gt, h0, this]
    · by_cases h4 : 400 < q
      · have : ¬ (q ≤ 400) := not_le.mpr h4
        simp [validateJambInput, JSNum.isNaN, JSNum.lt, JSNum.gt, h0, h4, this]
      · simp [validateJambInput, JSNum.isNaN, JSNum.lt, JSNum.gt, h0, h4,
          not_lt.mp h0, not_lt.mp h4]

/-- The state after `validateJambInput`: untouched on success, `showError` with
the exam-score message on failure. -/
theorem validateJambInput_snd (x : JSNum) (st : App) :
    (validateJambInput x st).2 =
      if (validateJambInput x st).1 = true then st else showError scoreMessage st := by
  unfold validateJambInput
  split_ifs <;> simp_all

/-- C2: `validateJambInput(x)` returns true if and only if `x` is a number other
than `NaN` with 0 <= x <= 400.  It accepts 0 and 400 and rejects -1 and
400.0001; whenever it rejects (NaN, x < 0, x > 400) it returns false after
`showError` with the exam-score message, which the result area then displays;
when it accepts, the page is untouched. -/
theorem validateJambInput_iff_in_range (x : JSNum) (st : App) :
    ((validateJambInput x st).1 = true ↔ ∃ q : ℚ, x = JSNum.fin q ∧ 0 ≤ q ∧ q ≤ 400)
    ∧ ((validateJambInput x st).1 = true → (validateJambInput x st).2 = st)
    ∧ ((validateJambInput x st).1 = false →
        (validateJambInput x st).2 = showError scoreMessage st
        ∧ ∀ d, st.resultDiv = some d →
            (validateJambInput x st).2.resultDiv =
              some { innerHTML := Html.text scoreMessage,
                     className := ["result-display", "error", "show"] })
    ∧ (validateJambInput (JSNum.fin 0) st).1 = true
    ∧ (validateJambInput (JSNum.fin 400) st).1 = true
    ∧ (validateJambInput (JSNum.fin (-1)) st).1 = false
    ∧ (validateJambInput (JSNum.fin (4000001 / 10000)) st).1 = false
    ∧ (validateJambInput JSNum.nan st).1 = false := by
  refine ⟨validateJambInput_fst x st, ?_, ?_, ?_, ?_, ?_, ?_, ?_⟩
  · intro h; rw [validateJambInput_snd, if_pos h]
  · intro h
    have hs : (validateJambInput x st).2 = showError scoreMessage st := by
      rw [validateJambInput_snd, if_neg (by simp [h])]
    exact ⟨hs, fun d hd => by rw [hs]; exact showError_resultDiv _ _ d hd⟩
  · exact (validateJambInput_fst _ st).mpr ⟨0, rfl, le_refl _, by norm_num⟩
  · exact (validateJambInput_fst _ st).mpr ⟨400, rfl, by norm_num, le_refl _⟩
  · have h := validateJambInput_fst (JSNum.fin (-1)) st
    cases hv : (validateJambInput (JSNum.fin (-1)) st).1
    · rfl
    · obtain ⟨q, hq, h0, _⟩ := h.mp hv
      injection hq with hq
      subst hq
      norm_num at h0
  · have h := validateJambInput_fst (JSNum.fin (4000001 / 10000)) st
    cases hv : (validateJambInput (JSNum.fin (4000001 / 10000)) st).1
    · rfl
    · obtain ⟨q, hq, _, h4⟩ := h.mp hv
      injection hq with hq
      subst hq
      norm_num at h4
  · simp [validateJambInput, JSNum.isNaN]

/-- C2 on the initial page: the typed value `-1` is rejected and the exam-score
message is displayed. -/
theorem validateJambInput_iff_in_range_witness :
    (validateJambInput (JSNum.fin (-1)) initialApp).1 = false
    ∧ (validateJambInput (JSNum.fin (-1)) initialApp).2.resultDiv =
        some { innerHTML := Html.text scoreMessage,
               className := ["result-display", "error", "show"] } :=
  ⟨(validateJambInput_iff_in_range (JSNum.fin (-1)) initialApp).2.2.2.2.2.1,
   ((validateJambInput_iff_in_range (JSNum.fin (-1)) initialApp).2.2.1
      (validateJambInput_iff_in_range (JSNum.fin (-1)) initialApp).2.2.2.2.2.1).2
      { innerHTML := Html.empty, className := ["result-display"] } rfl⟩

/-- The flag of `validateGradeSelections`: false exactly when a slot is empty. -/
theorem validateGradeSelections_fst (grades : List String) (st : App) :
    (validateGradeSelections grades st).1 = false ↔ "" ∈ grades := by
  have hlen : (List.filter (fun grade => grade == "") grades).length > 0 ↔ "" ∈ grades := by
    rw [gt_iff_lt, List.length_pos]
    constructor
    · intro h
      obtain ⟨g, hg⟩ := List.exists_mem_of_ne_nil _ h
      rw [List.mem_filter] at hg
      have : g = "" := by simpa using hg.2
      exact this ▸ hg.1
    · intro h hnil
      have : "" ∈ List.filter (fun grade => grade == "") grades :=
        List.mem_filter.mpr ⟨h, by simp⟩
      rw [hnil] at this
      exact List.not_mem_nil _ this
  unfold validateGradeSelections
  simp only []
  split_ifs with h
  · simp [hlen.mp h]
  · have : "" ∉ grades := fun hm => h (hlen.mpr hm)
    simp [this]

/-- The state after `validateGradeSelections`. -/
theorem validateGradeSelections_snd (grades : List String) (st : App) :
    (validateGradeSelections grades st).2 =
      if (validateGradeSelections grades st).1 = false then showError gradesMessage st else st := by
  unfold validateGradeSelections
  simp only []
  split_ifs <;> simp_all

/-- C4: for every list of grade selections with at least one empty slot,
`validateGradeSelections` returns false after `showError` with the
incomplete-grades message (which the result area then displays), whatever the
other slots hold; for every list with no empty slot it returns true and leaves
the page untouched. -/
theorem validateGradeSelections_iff_no_empty (grades : List String) (st : App) :
    ("" ∈ grades →
        validateGradeSelections grades st = (false, showError gradesMessage st)
        ∧ ∀ d, st.resultDiv = some d →
            (validateGradeSelections grades st).2.resultDiv =
              some { innerHTML := Html.text gradesMessage,
                     className := ["result-display", "error", "show"] })
    ∧ ("" ∉ grades → validateGradeSelections grades st = (true, st)) := by
  constructor
  · intro h
    have h1 := (validateGradeSelections_fst grades st).mpr h
    have h2 : (validateGradeSelections grades st).2 = showError gradesMessage st := by
      rw [validateGradeSelections_snd, if_pos h1]
    exact ⟨Prod.ext h1 h2, fun d hd => by rw [h2]; exact showError_resultDiv _ _ d hd⟩
  · intro h
    have h1 : (validateGradeSelections grades st).1 = true := by
      cases hv : (validateGradeSelections grades st).1
      · exact absurd ((validateGradeSelections_fst grades st).mp hv) h
      · rfl
    have h2 : (validateGradeSelections grades st).2 = st := by
      rw [validateGradeSelections_snd, if_neg (by simp [h1])]
    exact Prod.ext h1 h2

/-- C4 on the initial page: four grades chosen and the third slot empty is
rejected; five chosen grades are accepted. -/
theorem validateGradeSelections_iff_no_empty_witness :
    validateGradeSelections ["A1", "B2", "", "C4", "F9"] initialApp
        = (false, showError gradesMessage initialApp)
    ∧ validateGradeSelections ["A1", "B2", "B3", "C4", "F9"] initialApp = (true, initialApp) :=
  ⟨((validateGradeSelections_iff_no_empty ["A1", "B2", "", "C4", "F9"] initialApp).1
      (by decide)).1,
   (validateGradeSelections_iff_no_empty ["A1", "B2", "B3", "C4", "F9"] initialApp).2
      (by decide)⟩

/-! ## The grade-point sum and the total (C1, C7) -/

/-- One step of the reduce on a numeric accumulator, for a grade that is an own
key of the table or no property of the object at all. -/
theorem reduce_step_number (table : List (String × Int)) (grade : String) (a : ℚ)
    (h : (table.lookup grade).isSome = true ∨ grade ∉ objectPrototypeKeys) :
    Value.add (Value.num (JSNum.fin a))
        (Value.or (lookupGrade table grade) (Value.num (JSNum.fin 0)))
      = Value.num (JSNum.fin (a + (pointsOf table grade : ℚ))) := by
  cases hl : table.lookup grade with
  | some n =>
    by_cases hn : n = 0
    · subst hn
      simp [lookupGrade, pointsOf, hl, Value.or, Value.truthy, Value.add, JSNum.add, JSNum.isNaN]
    · have hq : (n : ℚ) ≠ 0 := by exact_mod_cast hn
      simp [lookupGrade, pointsOf, hl, Value.or, Value.truthy, Value.add, JSNum.add,
        JSNum.isNaN, hq]
  | none =>
    have hk : grade ∉ objectPrototypeKeys := by
      rcases h with h | h
      · simp [hl] at h
      · exact h
    simp [lookupGrade, pointsOf, hl, hk, Value.or, Value.truthy, Value.add, JSNum.add]

/-- The reduce from a numeric accumulator over grades none of which is a name
inherited from `Object.prototype` without being an own key. -/
theorem reduce_number (table : List (String × Int)) (grades : List String) :
    ∀ a : ℚ, (∀ g ∈ grades, (table.lookup g).isSome = true ∨ g ∉ objectPrototypeKeys) →
      grades.foldl
          (fun acc grade =>
            Value.add acc (Value.or (lookupGrade table grade) (Value.num (JSNum.fin 0))))
          (Value.num (JSNum.fin a))
        = Value.num (JSNum.fin (a + ((grades.map (pointsOf table)).sum : Int))) := by
  induction grades with
  | nil => intro a _; simp
  | cons g gs ih =>
    intro a h
    rw [List.foldl_cons, reduce_step_number table g a (h g (List.mem_cons_self _ _)),
      ih _ (fun x hx => h x (List.mem_cons_of_mem _ hx))]
    simp [add_assoc]

/-- The grade-point sum over such grades is the sum of the table values of the
own keys among them. -/
theorem olevelPointsOf_number (table : List (String × Int)) (grades : List String)
    (h : ∀ g ∈ grades, (table.lookup g).isSome = true ∨ g ∉ objectPrototypeKeys) :
    olevelPointsOf table grades
      = Value.num (JSNum.fin (((grades.map (pointsOf table)).sum : Int) : ℚ)) := by
  unfold olevelPointsOf
  rw [reduce_number table grades 0 h]
  simp

/-- A grade label is an own key of the table. -/
theorem lookup_of_label (g : String) (h : g ∈ gradePoints.map Prod.fst) :
    (gradePoints.lookup g).isSome = true := by
  simp [gradePoints] at h
  rcases h with h | h | h | h | h | h | h | h | h <;> subst h <;> decide

/-- The exam percentage of a finite score. -/
theorem jambPercentOf_fin (s : ℚ) : jambPercentOf (JSNum.fin s) = JSNum.fin (s * 60 / 400) := by
  simp [jambPercentOf, JSNum.mul, JSNum.div]

/-- The total for a finite score and grade labels. -/
theorem totalOf_labels (s : ℚ) (grades : List String)
    (h : ∀ g ∈ grades, g ∈ gradePoints.map Prod.fst) :
    totalOf gradePoints (JSNum.fin s) grades
      = Value.num (JSNum.fin (s * 60 / 400 + ((grades.map (pointsOf gradePoints)).sum : Int))) := by
  unfold totalOf
  rw [olevelPointsOf_number gradePoints grades (fun g hg => Or.inl (lookup_of_label g (h g hg))),
    jambPercentOf_fin]
  simp [Value.add, JSNum.add]

/-- The outcome of `calculateScore` when both validators pass. -/
theorem calculateScore_result (st : App)
    (h1 : (validateJambInput (readJamb st) st).1 = true)
    (h2 : "" ∉ st.gradeSelects) :
    (calculateScore st).1 = Outcome.result (totalOf st.gradePoints (readJamb st) st.gradeSelects) := by
  have h3 : (validateGradeSelections st.gradeSelects st).1 = true := by
    cases hv : (validateGradeSelections st.gradeSelects st).1
    · exact absurd ((validateGradeSelections_fst _ st).mp hv) h2
    · rfl
  rw [calculateScore_eq, if_neg (by simp [h1]), if_neg (by simp [h3])]
  cases showResult (totalOf st.gradePoints (readJamb st) st.gradeSelects) (readJamb st)
    st.gradeSelects st <;> rfl

/-- A grade label is not the empty string. -/
theorem label_ne_empty (grades : List String) (h : ∀ g ∈ grades, g ∈ gradePoints.map Prod.fst) :
    "" ∉ grades := by
  intro he
  have := h "" he
  simp [gradePoints] at this

/-- C1: for every exam score s with 0 <= s <= 400 read from the page and every
list of exactly five grade labels drawn from the nine keys of the table, the
total computed by `calculateScore` is s*60/400 plus the sum of the table values
of the five labels, in exact rational arithmetic; any other page state with the
same score and labels gives the same total.  For s = 250 and
[A1, B2, C4, B3, C5] the exam percentage is 37.5, the grade points are 30 and
the total is 67.5, which is also what `window.testCalculation` returns. -/
theorem calculateScore_total_formula (st : App) (s : ℚ) (grades : List String)
    (htable : st.gradePoints = gradePoints)
    (hs : readJamb st = JSNum.fin s) (h0 : 0 ≤ s) (h400 : s ≤ 400)
    (hg : st.gradeSelects = grades) (_hlen : grades.length = 5)
    (hlabels : ∀ g ∈ grades, g ∈ gradePoints.map Prod.fst) :
    (calculateScore st).1
        = Outcome.result (Value.num (JSNum.fin
            (s * 60 / 400 + ((grades.map (pointsOf gradePoints)).sum : Int))))
    ∧ (∀ st1 : App, st1.gradePoints = gradePoints → readJamb st1 = JSNum.fin s →
        st1.gradeSelects = grades → (calculateScore st1).1 = (calculateScore st).1)
    ∧ jambPercentOf (JSNum.fin 250) = JSNum.fin (75 / 2)
    ∧ olevelPointsOf gradePoints ["A1", "B2", "C4", "B3", "C5"] = Value.num (JSNum.fin 30)
    ∧ totalOf gradePoints (JSNum.fin 250) ["A1", "B2", "C4", "B3", "C5"]
        = Value.num (JSNum.fin (135 / 2))
    ∧ testCalculation st = Value.num (JSNum.fin (135 / 2)) := by
  have key : ∀ st1 : App, st1.gradePoints = gradePoints → readJamb st1 = JSNum.fin s →
      st1.gradeSelects = grades →
      (calculateScore st1).1 = Outcome.result (Value.num (JSNum.fin
        (s * 60 / 400 + ((grades.map (pointsOf gradePoints)).sum : Int)))) := by
    intro st1 ht hj hsel
    have hv : (validateJambInput (readJamb st1) st1).1 = true :=
      (validateJambInput_fst _ st1).mpr ⟨s, hj, h0, h400⟩
    rw [calculateScore_result st1 hv (hsel ▸ label_ne_empty grades hlabels), ht, hj, hsel,
      totalOf_labels s grades hlabels]
  have h250 : totalOf gradePoints (JSNum.fin 250) ["A1", "B2", "C4", "B3", "C5"]
      = Value.num (JSNum.fin (135 / 2)) := by
    rw [totalOf_labels 250 _ (by decide)]
    simp [pointsOf, gradePoints, List.lookup]
    norm_num
  refine ⟨key st htable hs hg, ?_, ?_, ?_, h250, ?_⟩
  · intro st1 ht hj hsel
    rw [key st1 ht hj hsel, key st htable hs hg]
  · rw [jambPercentOf_fin]; norm_num
  · rw [olevelPointsOf_number gradePoints _ (by decide)]
    simp [pointsOf, gradePoints, List.lookup]
  · unfold testCalculation
    rw [htable, h250]

/-- C1 on the page with 250 typed and A1, B2, C4, B3, C5 selected: the run ends
with the total 250*60/400 + (8+7+5+6+4). -/
theorem calculateScore_total_formula_witness :
    (calculateScore exampleApp).1
      = Outcome.result (Value.num (JSNum.fin (250 * 60 / 400
          + ((["A1", "B2", "C4", "B3", "C5"].map (pointsOf gradePoints)).sum : Int)))) :=
  (calculateScore_total_formula exampleApp 250 ["A1", "B2", "C4", "B3", "C5"] rfl
    (by simp [readJamb, exampleApp, toNumber_250])
    (by norm_num) (by norm_num) rfl rfl (by decide)).1

/-- The table value of a grade label lies in 0..8, is 8 only for A1 and 0 only
for F9. -/
theorem pointsOf_label (g : String) (h : g ∈ gradePoints.map Prod.fst) :
    0 ≤ pointsOf gradePoints g ∧ pointsOf gradePoints g ≤ 8
    ∧ (pointsOf gradePoints g = 8 ↔ g = "A1") ∧ (pointsOf gradePoints g = 0 ↔ g = "F9") := by
  simp [gradePoints] at h
  rcases h with h | h | h | h | h | h | h | h | h <;> subst h <;> decide

/-- Bounds on a sum of summands in 0..8, with the two extreme cases. -/
theorem sum_bounds (f : String → Int) (l : List String) (h : ∀ g ∈ l, 0 ≤ f g ∧ f g ≤ 8) :
    0 ≤ (l.map f).sum ∧ (l.map f).sum ≤ 8 * l.length
    ∧ ((l.map f).sum = 8 * l.length ↔ ∀ g ∈ l, f g = 8)
    ∧ ((l.map f).sum = 0 ↔ ∀ g ∈ l, f g = 0) := by
  induction l with
  | nil => simp
  | cons a as ih =>
    obtain ⟨i0, i8, ie8, ie0⟩ := ih (fun g hg => h g (List.mem_cons_of_mem _ hg))
    obtain ⟨a0, a8⟩ := h a (List.mem_cons_self _ _)
    simp only [List.map_cons, List.sum_cons, List.length_cons, List.mem_cons, forall_eq_or_imp,
      Nat.cast_add, Nat.cast_one]
    refine ⟨by omega, by omega, ?_, ?_⟩
    · constructor
      · intro hsum
        have h1 : f a = 8 := by omega
        have h2 : (as.map f).sum = 8 * as.length := by omega
        exact ⟨h1, ie8.mp h2⟩
      · rintro ⟨h1, h2⟩
        have := ie8.mpr h2
        omega
    · constructor
      · intro hsum
        have h1 : f a = 0 := by omega
        have h2 : (as.map f).sum = 0 := by omega
        exact ⟨h1, ie0.mp h2⟩
      · rintro ⟨h1, h2⟩
        have := ie0.mpr h2
        omega

/-- Rounding a value between 0 and a natural number below `2 ^ 53` stays in
that range. -/
theorem roundDouble_le_nat (x : ℚ) (N : ℕ) (hx0 : 0 ≤ x) (hxN : x ≤ N) (hN : N < 2 ^ 53) :
    ∃ v, roundDouble x = JSNum.fin v ∧ 0 ≤ v ∧ v ≤ N := by
  have h2 : (2 : ℕ) ^ 53 = 9007199254740992 := by norm_num
  rw [h2] at hN
  have hN' : (N : ℚ) < 9007199254740992 := by exact_mod_cast hN
  have h := roundDouble_le x (N : ℤ) 0 hx0 (by simpa using hxN) (by norm_num)
    (by norm_num; linarith) (by norm_num; linarith)
  simpa using h

/-- Rounding a value between 0 and `N / 8`, `N` below `2 ^ 53`, stays in that
range. -/
theorem roundDouble_le_eighths (x : ℚ) (N : ℕ) (hx0 : 0 ≤ x) (hxN : x ≤ N / 8) (hN : N < 2 ^ 53) :
    ∃ v, roundDouble x = JSNum.fin v ∧ 0 ≤ v ∧ v ≤ N / 8 := by
  have h2 : (2 : ℕ) ^ 53 = 9007199254740992 := by norm_num
  rw [h2] at hN
  have hN' : (N : ℚ) < 9007199254740992 := by exact_mod_cast hN
  have h8 : ((N : ℤ) : ℚ) * 2 ^ (-3 : ℤ) = N / 8 := by
    rw [zpow_neg]; norm_num; ring
  have h := roundDouble_le x (N : ℤ) (-3) hx0 (by rw [h8]; exact hxN) (by norm_num)
    (by norm_num; linarith) (by rw [h8]; norm_num; linarith)
  rw [h8] at h
  exact h

/-- The rounded reduce from a natural accumulator over grade labels: every
partial sum is a small natural number, hence a double. -/
theorem reduce_double_labels (grades : List String) :
    ∀ A : ℕ, (∀ g ∈ grades, g ∈ gradePoints.map Prod.fst) → A + 8 * grades.length < 2 ^ 53 →
      grades.foldl
          (fun acc grade => Value.round (Value.add acc
            (Value.or (lookupGrade gradePoints grade) (Value.num (JSNum.fin 0)))))
          (Value.num (JSNum.fin A))
        = Value.num (JSNum.fin (A + ((grades.map (pointsOf gradePoints)).sum : Int))) := by
  induction grades with
  | nil => intro A _ _; simp
  | cons g gs ih =>
    intro A h hlen
    have hg := h g (List.mem_cons_self _ _)
    obtain ⟨p0, p8, _, _⟩ := pointsOf_label g hg
    obtain ⟨k, hk⟩ := Int.eq_ofNat_of_zero_le p0
    have hk8 : k ≤ 8 := by omega
    have hstep := reduce_step_number gradePoints g (A : ℚ) (Or.inl (lookup_of_label g hg))
    have hcast : (A : ℚ) + (pointsOf gradePoints g : ℚ) = ((A + k : ℕ) : ℚ) := by
      rw [hk]; push_cast; ring
    simp only [List.length_cons] at hlen
    rw [List.foldl_cons, hstep, hcast]
    have hr : Value.round (Value.num (JSNum.fin ((A + k : ℕ) : ℚ)))
        = Value.num (JSNum.fin ((A + k : ℕ) : ℚ)) := by
      simp only [Value.round, JSNum.round]
      rw [roundDouble_nat (A + k) (by omega)]
    rw [hr, ih (A + k) (fun x hx => h x (List.mem_cons_of_mem _ hx)) (by omega)]
    simp only [List.map_cons, List.sum_cons, hk]
    push_cast
    congr 2
    ring

/-- The rounded grade-point sum over grade labels is the exact sum. -/
theorem olevelPointsDouble_labels (grades : List String)
    (h : ∀ g ∈ grades, g ∈ gradePoints.map Prod.fst) (hlen : grades.length = 5) :
    olevelPointsDouble gradePoints grades
      = Value.num (JSNum.fin (((grades.map (pointsOf gradePoints)).sum : Int) : ℚ)) := by
  have := reduce_double_labels grades 0 h (by rw [hlen]; norm_num)
  unfold olevelPointsDouble
  simp only [Nat.cast_zero, zero_add] at this
  exact this

/-- The exam percentage in double arithmetic, from its two rounded steps. -/
theorem jambPercentDouble_fin (s a p : ℚ) (ha : roundDouble (s * 60) = JSNum.fin a)
    (hp : roundDouble (a / 400) = JSNum.fin p) :
    jambPercentDouble (JSNum.fin s) = JSNum.fin p := by
  simp [jambPercentDouble, JSNum.mul, JSNum.round, ha, JSNum.div, hp]

/-- The total in double arithmetic, from the percentage, the grade points and
the rounded sum. -/
theorem totalDouble_fin (s p g t : ℚ) (grades : List String)
    (hjp : jambPercentDouble (JSNum.fin s) = JSNum.fin p)
    (hsum : olevelPointsDouble gradePoints grades = Value.num (JSNum.fin g))
    (ht : roundDouble (p + g) = JSNum.fin t) :
    totalDouble gradePoints (JSNum.fin s) grades = Value.num (JSNum.fin t) := by
  simp [totalDouble, hjp, hsum, Value.add, JSNum.add, Value.round, JSNum.round, ht]

/-- The rounded pipeline of lines 119-121 for a score in [0, U], U ≤ 400: the
product, the quotient and the sum each round to a finite double, within the
bounds that the exact values obey. -/
theorem totalDouble_chain (s : ℚ) (grades : List String) (g : ℚ)
    (h0 : 0 ≤ s) (h400 : s ≤ 400)
    (hsum : olevelPointsDouble gradePoints grades = Value.num (JSNum.fin g))
    (hg0 : 0 ≤ g) (hg40 : g ≤ 40) :
    ∃ a p t : ℚ,
      roundDouble (s * 60) = JSNum.fin a ∧ roundDouble (a / 400) = JSNum.fin p
      ∧ roundDouble (p + g) = JSNum.fin t
      ∧ jambPercentDouble (JSNum.fin s) = JSNum.fin p
      ∧ totalDouble gradePoints (JSNum.fin s) grades = Value.num (JSNum.fin t)
      ∧ 0 ≤ a ∧ a ≤ 24000 ∧ 0 ≤ p ∧ p ≤ 60 ∧ 0 ≤ t ∧ t ≤ 100 := by
  obtain ⟨a, ha, a0, a1⟩ := roundDouble_le_nat (s * 60) 24000 (by linarith)
    (by push_cast; linarith) (by norm_num)
  obtain ⟨p, hp, p0, p1⟩ := roundDouble_le_nat (a / 400) 60 (by positivity)
    (by push_cast at a1 ⊢; linarith) (by norm_num)
  obtain ⟨t, ht, t0, t1⟩ := roundDouble_le_nat (p + g) 100 (by linarith)
    (by push_cast at p1 ⊢; linarith) (by norm_num)
  have hjp := jambPercentDouble_fin s a p ha hp
  exact ⟨a, p, t, ha, hp, ht, hjp, totalDouble_fin s p g t grades hjp hsum ht, a0,
    by simpa using a1, p0, by simpa using p1, t0, by simpa using t1⟩

/-- The double nearest to a positive normal value, from its binade and the
rounded significand. -/
theorem roundDouble_eval (x : ℚ) (e m : ℤ) (hx : 0 < x) (h1 : (2 : ℚ) ^ e ≤ x)
    (h2 : x < (2 : ℚ) ^ (e + 1)) (he : -1022 ≤ e)
    (hm : roundHalfEven (x / 2 ^ (e - 52)) = m)
    (hfin : (m : ℚ) * 2 ^ (e - 52) < 2 ^ (1024 : ℕ)) :
    roundDouble x = JSNum.fin (m * 2 ^ (e - 52)) := by
  have hq := quantumExp_of_binade x e hx h1 h2 he
  have hr : roundDouble x = roundPos x := by simp [roundDouble, hx]
  rw [hr]
  unfold roundPos
  simp only []
  rw [hq, hm, if_pos hfin]

/-- C7 as stated fails in double arithmetic: the score 400 - 2^-44
(399.99999999999994, the double just below 400) passes `validateJambInput`;
with five A1 the product rounds to 24000 - 2^-38, the quotient to 60 - 2^-47,
and the sum 100 - 2^-47 lies halfway between two doubles and rounds to 100.
The total is exactly 100 although the score is not 400. -/
theorem total_100_below_400 :
    roundDouble (400 - 1 / 2 ^ 44) = JSNum.fin (400 - 1 / 2 ^ 44)
    ∧ (validateJambInput (JSNum.fin (400 - 1 / 2 ^ 44)) initialApp).1 = true
    ∧ jambPercentDouble (JSNum.fin (400 - 1 / 2 ^ 44)) = JSNum.fin (60 - 1 / 2 ^ 47)
    ∧ olevelPointsDouble gradePoints ["A1", "A1", "A1", "A1", "A1"] = Value.num (JSNum.fin 40)
    ∧ totalDouble gradePoints (JSNum.fin (400 - 1 / 2 ^ 44)) ["A1", "A1", "A1", "A1", "A1"]
        = Value.num (JSNum.fin 100)
    ∧ (400 - 1 / 2 ^ 44 : ℚ) ≠ 400 := by
  have hs : roundDouble (400 - 1 / 2 ^ 44) = JSNum.fin (400 - 1 / 2 ^ 44) := by
    have h := roundDouble_eval (400 - 1 / 2 ^ 44) 8 (400 * 2 ^ 44 - 1) (by norm_num)
      (by norm_num) (by norm_num) (by norm_num)
      (by
        have : ((400 : ℚ) - 1 / 2 ^ 44) / 2 ^ ((8 : ℤ) - 52)
            = ((400 * 2 ^ 44 - 1 : ℤ) : ℚ) := by norm_num
        rw [this, roundHalfEven_int])
      (by norm_num)
    rw [h]; congr 1; norm_num
  have ha : roundDouble ((400 - 1 / 2 ^ 44) * 60) = JSNum.fin (24000 - 1 / 2 ^ 38) := by
    have h := roundDouble_eval ((400 - 1 / 2 ^ 44) * 60) 14 (24000 * 2 ^ 38 - 1) (by norm_num)
      (by norm_num) (by norm_num) (by norm_num)
      (roundHalfEven_near _ _ (by norm_num) (by norm_num))
      (by norm_num)
    rw [h]; congr 1; norm_num
  have hp : roundDouble ((24000 - 1 / 2 ^ 38) / 400) = JSNum.fin (60 - 1 / 2 ^ 47) := by
    have h := roundDouble_eval ((24000 - 1 / 2 ^ 38) / 400) 5 (60 * 2 ^ 47 - 1) (by norm_num)
      (by norm_num) (by norm_num) (by norm_num)
      (roundHalfEven_near _ _ (by norm_num) (by norm_num))
      (by norm_num)
    rw [h]; congr 1; norm_num
  have ht : roundDouble (60 - 1 / 2 ^ 47 + 40) = JSNum.fin 100 := by
    have htie : ((60 : ℚ) - 1 / 2 ^ 47 + 40) / 2 ^ ((6 : ℤ) - 52)
        = ((100 * 2 ^ 46 - 1 : ℤ) : ℚ) + 1 / 2 := by norm_num
    have h := roundDouble_eval (60 - 1 / 2 ^ 47 + 40) 6 (100 * 2 ^ 46 - 1 + 1) (by norm_num)
      (by norm_num) (by norm_num) (by norm_num)
      (by rw [htie]; exact roundHalfEven_tie_odd _ (by norm_num))
      (by norm_num)
    rw [h]; congr 1; norm_num
  have hv : (validateJambInput (JSNum.fin (400 - 1 / 2 ^ 44)) initialApp).1 = true :=
    (validateJambInput_fst _ _).mpr ⟨_, rfl, by norm_num, by norm_num⟩
  have hjp : jambPercentDouble (JSNum.fin (400 - 1 / 2 ^ 44)) = JSNum.fin (60 - 1 / 2 ^ 47) :=
    jambPercentDouble_fin _ _ _ ha hp
  have ho : olevelPointsDouble gradePoints ["A1", "A1", "A1", "A1", "A1"]
      = Value.num (JSNum.fin 40) := by
    rw [olevelPointsDouble_labels ["A1", "A1", "A1", "A1", "A1"] (by decide) rfl]
    simp [pointsOf, gradePoints, List.lookup]
  exact ⟨hs, hv, hjp, ho, totalDouble_fin _ _ _ _ _ hjp ho ht, by norm_num⟩

/-- C7, amended: in double arithmetic, for every exam score s in [0, 400] and
every five grade labels, the exam percentage lies in [0, 60], the grade points
lie in [0, 40] and the total lies in [0, 100]; and when s is an integer, the
total is 100 exactly when s = 400 and all five grades are A1, and 0 exactly
when s = 0 and all five grades are F9.  The score 400 with
[A1, A1, A1, A1, A1] gives 60 + 40 = 100. -/
theorem total_within_bounds_double (s : ℚ) (grades : List String)
    (h0 : 0 ≤ s) (h400 : s ≤ 400) (hlen : grades.length = 5)
    (hlabels : ∀ g ∈ grades, g ∈ gradePoints.map Prod.fst) :
    ∃ p g t : ℚ,
      jambPercentDouble (JSNum.fin s) = JSNum.fin p
      ∧ olevelPointsDouble gradePoints grades = Value.num (JSNum.fin g)
      ∧ totalDouble gradePoints (JSNum.fin s) grades = Value.num (JSNum.fin t)
      ∧ 0 ≤ p ∧ p ≤ 60 ∧ 0 ≤ g ∧ g ≤ 40 ∧ 0 ≤ t ∧ t ≤ 100
      ∧ ((∃ n : ℕ, s = n) →
          (t = 100 ↔ s = 400 ∧ ∀ x ∈ grades, x = "A1")
          ∧ (t = 0 ↔ s = 0 ∧ ∀ x ∈ grades, x = "F9"))
      ∧ jambPercentDouble (JSNum.fin 400) = JSNum.fin 60
      ∧ olevelPointsDouble gradePoints ["A1", "A1", "A1", "A1", "A1"] = Value.num (JSNum.fin 40)
      ∧ totalDouble gradePoints (JSNum.fin 400) ["A1", "A1", "A1", "A1", "A1"]
          = Value.num (JSNum.fin 100) := by
  obtain ⟨g0, g8, ge8, ge0⟩ := sum_bounds (pointsOf gradePoints) grades
    (fun g hg => ⟨(pointsOf_label g (hlabels g hg)).1, (pointsOf_label g (hlabels g hg)).2.1⟩)
  rw [hlen] at g8 ge8
  have hA : (∀ x ∈ grades, pointsOf gradePoints x = 8) ↔ ∀ x ∈ grades, x = "A1" :=
    forall₂_congr (fun x hx => (pointsOf_label x (hlabels x hx)).2.2.1)
  have hF : (∀ x ∈ grades, pointsOf gradePoints x = 0) ↔ ∀ x ∈ grades, x = "F9" :=
    forall₂_congr (fun x hx => (pointsOf_label x (hlabels x hx)).2.2.2)
  generalize hS : (grades.map (pointsOf gradePoints)).sum = S at g0 g8 ge8 ge0
  have hsum := olevelPointsDouble_labels grades hlabels hlen
  rw [hS] at hsum
  have q0 : (0 : ℚ) ≤ (S : ℚ) := by exact_mod_cast g0
  have q40 : (S : ℚ) ≤ 40 := by
    have : S ≤ 40 := by omega
    exact_mod_cast this
  obtain ⟨a, p, t, ha, hp, ht, hjp, htot, a0, a1, p0, p1, t0, t1⟩ :=
    totalDouble_chain s grades S h0 h400 hsum q0 q40
  have h24000 : roundDouble 24000 = JSNum.fin 24000 := by
    simpa using roundDouble_nat 24000 (by norm_num)
  have h60 : roundDouble 60 = JSNum.fin 60 := by simpa using roundDouble_nat 60 (by norm_num)
  have h100 : roundDouble 100 = JSNum.fin 100 := by
    simpa using roundDouble_nat 100 (by norm_num)
  have hjp400 : jambPercentDouble (JSNum.fin 400) = JSNum.fin 60 :=
    jambPercentDouble_fin 400 24000 60
      (by rw [show (400 : ℚ) * 60 = 24000 by norm_num]; exact h24000)
      (by rw [show (24000 : ℚ) / 400 = 60 by norm_num]; exact h60)
  have ho40 : olevelPointsDouble gradePoints ["A1", "A1", "A1", "A1", "A1"]
      = Value.num (JSNum.fin 40) := by
    rw [olevelPointsDouble_labels ["A1", "A1", "A1", "A1", "A1"] (by decide) rfl]
    simp [pointsOf, gradePoints, List.lookup]
  have htot400 : totalDouble gradePoints (JSNum.fin 400) ["A1", "A1", "A1", "A1", "A1"]
      = Value.num (JSNum.fin 100) :=
    totalDouble_fin 400 60 40 100 _ hjp400 ho40
      (by rw [show (60 : ℚ) + 40 = 100 by norm_num]; exact h100)
  refine ⟨p, S, t, hjp, hsum, htot, p0, p1, q0, q40, t0, t1, ?_, hjp400, ho40, htot400⟩
  rintro ⟨n, hn⟩
  have hn400 : n ≤ 400 := by
    have : (n : ℚ) ≤ 400 := hn ▸ h400
    exact_mod_cast this
  constructor
  · rw [← hA, ← ge8]
    constructor
    · intro ht100
      have hs400 : n = 400 := by
        by_contra hne
        have hle : n ≤ 399 := by omega
        have hs399 : s ≤ 399 := by rw [hn]; exact_mod_cast hle
        obtain ⟨a', ha', _, a1'⟩ := roundDouble_le_nat (s * 60) 23940 (by linarith)
          (by push_cast; linarith) (by norm_num)
        rw [ha] at ha'
        injection ha' with ha'
        subst ha'
        obtain ⟨p', hp', _, p1'⟩ := roundDouble_le_eighths (a / 400) 479 (by positivity)
          (by push_cast at a1' ⊢; linarith) (by norm_num)
        rw [hp] at hp'
        injection hp' with hp'
        subst hp'
        obtain ⟨t', ht', _, t1'⟩ := roundDouble_le_eighths (p + S) 799 (by linarith)
          (by push_cast at p1' ⊢; linarith) (by norm_num)
        rw [ht] at ht'
        injection ht' with ht'
        subst ht'
        rw [ht100] at t1'
        norm_num at t1'
      refine ⟨by rw [hn, hs400]; norm_num, ?_⟩
      by_contra hne
      have hS39 : S ≤ 39 := by omega
      have q39 : (S : ℚ) ≤ 39 := by exact_mod_cast hS39
      obtain ⟨t', ht', _, t1'⟩ := roundDouble_le_nat (p + S) 99 (by linarith)
        (by push_cast; linarith) (by norm_num)
      rw [ht] at ht'
      injection ht' with ht'
      subst ht'
      rw [ht100] at t1'
      norm_num at t1'
    · rintro ⟨hs, hS40⟩
      have hS40' : (S : ℚ) = 40 := by
        have : S = 40 := by omega
        exact_mod_cast this
      subst hs
      have e1 : (400 : ℚ) * 60 = 24000 := by norm_num
      rw [e1, h24000] at ha
      injection ha with ha
      subst ha
      have e2 : (24000 : ℚ) / 400 = 60 := by norm_num
      rw [e2, h60] at hp
      injection hp with hp
      subst hp
      have e3 : (60 : ℚ) + S = 100 := by rw [hS40']; norm_num
      rw [e3, h100] at ht
      injection ht with ht
      exact ht.symm
  · rw [← hF, ← ge0]
    constructor
    · intro ht0
      have hs0 : n = 0 := by
        by_contra hne
        have hge : 1 ≤ n := by omega
        have hs1 : (1 : ℚ) ≤ s := by rw [hn]; exact_mod_cast hge
        have a32 := roundDouble_ge (s * 60) 5 a (by norm_num; linarith) (by norm_num) ha
        have p16 := roundDouble_ge (a / 400) (-4) p
          (by rw [zpow_neg]; norm_num at a32 ⊢; linarith) (by norm_num) hp
        have t16 := roundDouble_ge (p + S) (-4) t (by linarith) (by norm_num) ht
        rw [ht0, zpow_neg] at t16
        norm_num at t16
      refine ⟨by rw [hn, hs0]; norm_num, ?_⟩
      by_contra hne
      have hS1 : 1 ≤ S := by omega
      have q1 : (1 : ℚ) ≤ (S : ℚ) := by exact_mod_cast hS1
      have t1' := roundDouble_ge (p + S) 0 t (by norm_num; linarith) (by norm_num) ht
      rw [ht0] at t1'
      norm_num at t1'
    · rintro ⟨hs, hS0⟩
      subst hs
      rw [hS0] at ht
      have e1 : (0 : ℚ) * 60 = 0 := by norm_num
      rw [e1, roundDouble_zero] at ha
      injection ha with ha
      subst ha
      have e2 : (0 : ℚ) / 400 = 0 := by norm_num
      rw [e2, roundDouble_zero] at hp
      injection hp with hp
      subst hp
      have e3 : (0 : ℚ) + ((0 : ℤ) : ℚ) = 0 := by norm_num
      rw [e3, roundDouble_zero] at ht
      injection ht with ht
      exact ht.symm

/-- C7, amended, at the score 400 with five A1: the total is 100, the largest
value, and at this integer score it is 100 because the score is 400 and every
grade is A1. -/
theorem total_within_bounds_double_witness :
    ∃ p g t : ℚ,
      totalDouble gradePoints (JSNum.fin 400) ["A1", "A1", "A1", "A1", "A1"]
        = Value.num (JSNum.fin t)
      ∧ p ≤ 60 ∧ g ≤ 40 ∧ t ≤ 100
      ∧ (t = 100 ↔ (400 : ℚ) = 400 ∧ ∀ x ∈ ["A1", "A1", "A1", "A1", "A1"], x = "A1") := by
  obtain ⟨p, g, t, _, _, ht, _, hp, _, hg, _, h100, hint, _⟩ :=
    total_within_bounds_double 400 ["A1", "A1", "A1", "A1", "A1"] (by norm_num) (by norm_num) rfl
      (by decide)
  exact ⟨p, g, t, ht, hp, hg, h100, (hint ⟨400, by norm_num⟩).1⟩

/-! ## Grades that are not labels (C6) -/

/-- C6, evaluated where it fails: a grade named like a member of
`Object.prototype` is not an own key of the table, yet `gradePoints[grade]`
finds the inherited member, which is truthy, so `|| 0` does not apply and `+`
concatenates: the sum stops being a number, `showResult` raises at
`total.toFixed` and `calculateScore` ends without a result on display and
without `hideLoading`.  A name that is neither a key nor inherited ("A2", "Z")
does add 0. -/
theorem inherited_name_makes_sum_a_string :
    gradePoints.lookup "constructor" = none
    ∧ lookupGrade gradePoints "constructor" = Value.obj
    ∧ lookupGrade gradePoints "toString" = Value.obj
    ∧ olevelPointsOf gradePoints ["constructor"] = Value.str
    ∧ olevelPointsOf gradePoints ["A1", "toString", "B2", "B3", "C4"] = Value.str
    ∧ olevelPointsOf gradePoints ["A2", "Z"] = Value.num (JSNum.fin 0)
    ∧ (calculateScore inheritedNameApp).1 = Outcome.result Value.str
    ∧ showResult Value.str (JSNum.fin 250) inheritedNameApp.gradeSelects inheritedNameApp = none
    ∧ (calculateScore inheritedNameApp).2 = inheritedNameApp := by
  have hsum : olevelPointsOf gradePoints ["constructor", "A1", "A1", "A1", "A1"] = Value.str := by
    decide
  have hj : readJamb inheritedNameApp = JSNum.fin 250 := by
    simp [readJamb, inheritedNameApp, initialApp, toNumber_250]
  have ht : totalOf inheritedNameApp.gradePoints (readJamb inheritedNameApp)
      inheritedNameApp.gradeSelects = Value.str := by
    rw [hj]
    show Value.add _ (olevelPointsOf gradePoints ["constructor", "A1", "A1", "A1", "A1"]) = _
    rw [hsum]; rfl
  have hv : (validateJambInput (readJamb inheritedNameApp) inheritedNameApp).1 = true :=
    (validateJambInput_fst _ _).mpr ⟨250, hj, by norm_num, by norm_num⟩
  have hg : (validateGradeSelections inheritedNameApp.gradeSelects inheritedNameApp).1 = true := by
    cases hx : (validateGradeSelections inheritedNameApp.gradeSelects inheritedNameApp).1
    · exact absurd ((validateGradeSelections_fst _ _).mp hx) (by decide)
    · rfl
  have hc := calculateScore_eq inheritedNameApp
  rw [if_neg (by simp [hv]), if_neg (by simp [hg]), ht] at hc
  have hshow : showResult Value.str (readJamb inheritedNameApp) inheritedNameApp.gradeSelects
      inheritedNameApp = none := rfl
  rw [hshow] at hc
  refine ⟨by decide, by decide, by decide, by decide, by decide, ?_, ?_, rfl, ?_⟩
  · rw [olevelPointsOf_number gradePoints _ (by decide)]
    simp [pointsOf, gradePoints, List.lookup]
  · rw [hc]
  · rw [hc]

/-! ## The outcomes of `calculateScore` (C3, C8, C10) -/

@[simp] theorem hideLoading_resultDiv (st : App) :
    (hideLoading st).resultDiv = st.resultDiv := by
  unfold hideLoading; cases st.calculateBtn <;> rfl

@[simp] theorem hideLoading_timers (st : App) : (hideLoading st).timers = st.timers := by
  unfold hideLoading; cases st.calculateBtn <;> rfl

@[simp] theorem hideLoading_now (st : App) : (hideLoading st).now = st.now := by
  unfold hideLoading; cases st.calculateBtn <;> rfl

@[simp] theorem updateFormValidity_resultDiv (st : App) :
    (updateFormValidity st).resultDiv = st.resultDiv := by
  unfold updateFormValidity; cases st.calculateBtn <;> cases st.jambInput <;> rfl

@[simp] theorem updateFormValidity_timers (st : App) :
    (updateFormValidity st).timers = st.timers := by
  unfold updateFormValidity; cases st.calculateBtn <;> cases st.jambInput <;> rfl

@[simp] theorem updateFormValidity_now (st : App) : (updateFormValidity st).now = st.now := by
  unfold updateFormValidity; cases st.calculateBtn <;> cases st.jambInput <;> rfl

/-- What `showResult` does for a numeric total: it returns, the timers are as
before and the result area, when present, holds the result markup. -/
theorem showResult_num (t : ℚ) (jamb : JSNum) (grades : List String) (st : App) :
    ∃ st3, showResult (Value.num (JSNum.fin t)) jamb grades st = some st3
      ∧ st3.timers = st.timers ∧ st3.now = st.now
      ∧ (st.resultDiv = none → st3 = st)
      ∧ (∀ d, st.resultDiv = some d →
          st3.resultDiv = some { innerHTML := Html.result (JSNum.fin t) jamb (jambPercentOf jamb)
                                   (olevelPointsOf st.gradePoints grades),
                                 className := ["result-display", "show"] }) := by
  cases hr : st.resultDiv with
  | none => exact ⟨st, by simp [showResult, hr], rfl, rfl, fun _ => rfl, by simp⟩
  | some d =>
    exact ⟨{ st with
        resultDiv := some { innerHTML := Html.result (JSNum.fin t) jamb (jambPercentOf jamb)
                              (olevelPointsOf st.gradePoints grades),
                            className := ["result-display", "show"] } },
      by simp only [showResult, hr], rfl, rfl, by simp [hr], by simp⟩

/-- How `showResult` changes the result area and the timers, when it returns. -/
theorem showResult_some (total : Value) (jamb : JSNum) (grades : List String) (st st3 : App)
    (h : showResult total jamb grades st = some st3) :
    st3.timers = st.timers ∧ st3.now = st.now
    ∧ (st3.resultDiv = st.resultDiv
        ∨ ∃ t jp op, st3.resultDiv = some { innerHTML := Html.result t jamb jp op,
                                             className := ["result-display", "show"] }) := by
  unfold showResult at h
  cases total <;> simp at h
  cases hr : st.resultDiv <;> simp [hr] at h <;> subst h
  · exact ⟨rfl, rfl, Or.inl hr⟩
  · exact ⟨rfl, rfl, Or.inr ⟨_, _, _, rfl⟩⟩

/-- A run of `calculateScore` calls `showResult` exactly when both validators
pass. -/
theorem calculateScore_result_iff (st : App) :
    (∃ total, (calculateScore st).1 = Outcome.result total)
      ↔ (validateJambInput (readJamb st) st).1 = true
          ∧ (validateGradeSelections st.gradeSelects st).1 = true := by
  rw [calculateScore_eq]
  cases h1 : (validateJambInput (readJamb st) st).1
  · simp
  · cases h2 : (validateGradeSelections st.gradeSelects st).1
    · simp
    · cases showResult (totalOf st.gradePoints (readJamb st) st.gradeSelects) (readJamb st)
        st.gradeSelects st <;> simp

/-- The exam score read from an empty field. -/
theorem readJamb_empty (st : App) (h : st.jambInput = some "") : readJamb st = JSNum.fin 0 := by
  simp [readJamb, h]

/-- C3 as stated fails: on the page with the exam-score field empty and five
A1 selected, `calculateScore` ends with a result (0 + 40 = 40), which is put on
display; the exam-score message is not shown. -/
theorem empty_score_produces_result :
    emptyScoreApp.jambInput = some ""
    ∧ (calculateScore emptyScoreApp).1 = Outcome.result (Value.num (JSNum.fin 40))
    ∧ (calculateScore emptyScoreApp).1 ≠ Outcome.scoreError
    ∧ (calculateScore emptyScoreApp).2.resultDiv =
        some { innerHTML := Html.result (JSNum.fin 40) (JSNum.fin 0) (JSNum.fin 0)
                 (Value.num (JSNum.fin 40)),
               className := ["result-display", "show"] } := by
  have hj : readJamb emptyScoreApp = JSNum.fin 0 := readJamb_empty _ rfl
  have hv : (validateJambInput (readJamb emptyScoreApp) emptyScoreApp).1 = true :=
    (validateJambInput_fst _ _).mpr ⟨0, hj, le_refl _, by norm_num⟩
  have hg : (validateGradeSelections emptyScoreApp.gradeSelects emptyScoreApp).1 = true := by
    cases hx : (validateGradeSelections emptyScoreApp.gradeSelects emptyScoreApp).1
    · exact absurd ((validateGradeSelections_fst _ _).mp hx) (by decide)
    · rfl
  have ho : olevelPointsOf gradePoints ["A1", "A1", "A1", "A1", "A1"]
      = Value.num (JSNum.fin 40) := by
    rw [olevelPointsOf_number gradePoints _ (by decide)]
    simp [pointsOf, gradePoints, List.lookup]
  have hp : jambPercentOf (JSNum.fin 0) = JSNum.fin 0 := by rw [jambPercentOf_fin]; norm_num
  have ht : totalOf emptyScoreApp.gradePoints (readJamb emptyScoreApp) emptyScoreApp.gradeSelects
      = Value.num (JSNum.fin 40) := by
    rw [hj]
    show Value.add (Value.num (jambPercentOf (JSNum.fin 0)))
      (olevelPointsOf gradePoints ["A1", "A1", "A1", "A1", "A1"]) = _
    rw [ho, hp]
    simp [Value.add, JSNum.add]
  have hc := calculateScore_eq emptyScoreApp
  rw [if_neg (by simp [hv]), if_neg (by simp [hg]), ht, hj] at hc
  have hshow : showResult (Value.num (JSNum.fin 40)) (JSNum.fin 0) emptyScoreApp.gradeSelects
      emptyScoreApp
      = some { emptyScoreApp with
          resultDiv := some { innerHTML := Html.result (JSNum.fin 40) (JSNum.fin 0)
                                (jambPercentOf (JSNum.fin 0))
                                (olevelPointsOf gradePoints ["A1", "A1", "A1", "A1", "A1"]),
                              className := ["result-display", "show"] } } := rfl
  rw [hshow, ho, hp] at hc
  refine ⟨rfl, ?_, ?_, ?_⟩
  · rw [hc]
  · rw [hc]; simp
  · rw [hc]; simp

/-- C3, amended: when `calculateScore` runs with the exam-score field empty,
the score is read as 0 and passes `validateJambInput`, so the exam-score
message is never the outcome: with an empty grade slot the run ends with the
incomplete-grades message and no result, and otherwise `showResult` is called
with the total computed from the exam score 0. -/
theorem empty_score_read_as_zero (st : App) (h : st.jambInput = some "") :
    readJamb st = JSNum.fin 0
    ∧ (validateJambInput (readJamb st) st).1 = true
    ∧ (calculateScore st).1 ≠ Outcome.scoreError
    ∧ ("" ∈ st.gradeSelects →
        calculateScore st = (Outcome.gradesError, hideLoading (showError gradesMessage st)))
    ∧ ("" ∉ st.gradeSelects →
        (calculateScore st).1
          = Outcome.result (totalOf st.gradePoints (JSNum.fin 0) st.gradeSelects)) := by
  have hj := readJamb_empty st h
  have hv : (validateJambInput (readJamb st) st).1 = true :=
    (validateJambInput_fst _ st).mpr ⟨0, hj, le_refl _, by norm_num⟩
  have hgr : "" ∈ st.gradeSelects →
      calculateScore st = (Outcome.gradesError, hideLoading (showError gradesMessage st)) := by
    intro he
    rw [calculateScore_eq, if_neg (by simp [hv]),
      if_pos ((validateGradeSelections_fst _ st).mpr he)]
  have hres : "" ∉ st.gradeSelects →
      (calculateScore st).1
        = Outcome.result (totalOf st.gradePoints (JSNum.fin 0) st.gradeSelects) := by
    intro hne
    rw [calculateScore_result st hv hne, hj]
  refine ⟨hj, hv, ?_, hgr, hres⟩
  by_cases he : "" ∈ st.gradeSelects
  · rw [hgr he]; simp
  · rw [hres he]; simp

/-- C3, amended, on the initial page (everything empty): the outcome is the
incomplete-grades message, not the exam-score message. -/
theorem empty_score_read_as_zero_witness :
    readJamb initialApp = JSNum.fin 0
    ∧ calculateScore initialApp
        = (Outcome.gradesError, hideLoading (showError gradesMessage initialApp)) :=
  ⟨(empty_score_read_as_zero initialApp rfl).1,
   (empty_score_read_as_zero initialApp rfl).2.2.2.1 (by decide)⟩

/-- `showError` leaves a message of the program on display. -/
theorem showError_knownDisplay (message : String) (st : App)
    (hm : message = scoreMessage ∨ message = gradesMessage) (h : knownDisplay st) :
    knownDisplay (showError message st) := by
  intro msg cls hd
  cases hr : st.resultDiv with
  | none =>
    have : showError message st = st := by simp [showError, hr]
    rw [this] at hd
    exact h msg cls hd
  | some d =>
    rw [showError_resultDiv message st d hr] at hd
    simp at hd
    rw [← hd.1]; exact hm

/-- `calculateScore` keeps the display within the messages of the program. -/
theorem calculateScore_knownDisplay (st : App) (h : knownDisplay st) :
    knownDisplay (calculateScore st).2 := by
  intro msg cls hd
  rw [calculateScore_eq] at hd
  split_ifs at hd
  · exact showError_knownDisplay _ st (Or.inl rfl) h msg cls (by simpa using hd)
  · exact showError_knownDisplay _ st (Or.inr rfl) h msg cls (by simpa using hd)
  · cases hs : showResult (totalOf st.gradePoints (readJamb st) st.gradeSelects) (readJamb st)
        st.gradeSelects st with
    | none => rw [hs] at hd; exact h msg cls hd
    | some st3 =>
      rw [hs] at hd
      simp at hd
      rcases (showResult_some _ _ _ _ _ hs).2.2 with he | ⟨t, jp, op, he⟩
      · exact h msg cls (he ▸ hd)
      · rw [he] at hd; simp at hd

/-- Every event keeps the display within the messages of the program. -/
theorem step_knownDisplay (st st1 : App) (e : Event) (hs : step st e = some st1)
    (h : knownDisplay st) : knownDisplay st1 := by
  cases e with
  | submit =>
    simp [step, handleFormSubmit] at hs; subst hs
    intro msg cls hd
    cases hb : st.calculateBtn <;> cases hr : st.resultDiv <;>
      simp [setTimeout, showLoading, hb, hr] at hd
  | input v =>
    cases hj : st.jambInput <;> simp [step, hj] at hs
    subst hs
    intro msg cls hd
    exact h msg cls (by simpa using hd)
  | change i grade =>
    simp [step] at hs
    obtain ⟨_, hs⟩ := hs
    subst hs
    intro msg cls hd
    exact h msg cls (by simpa using hd)
  | wait d =>
    simp [step] at hs
    obtain ⟨_, hs⟩ := hs
    subst hs
    exact h
  | fire =>
    cases hn : nextTimer st.timers with
    | none => simp [step, hn] at hs
    | some t =>
      simp [step, hn] at hs
      obtain ⟨_, hs⟩ := hs
      subst hs
      have h0 : knownDisplay { st with timers := st.timers.erase t } := h
      cases ht : t.task with
      | calculate => exact calculateScore_knownDisplay _ h0
      | clearError =>
        intro msg cls hd
        simp only [runTask, clearErrorCallback] at hd
        cases hr : st.resultDiv with
        | none => simp [hr] at hd
        | some d =>
          simp only [hr] at hd
          split_ifs at hd
          · simp at hd
          · exact h msg cls (by rw [hr]; exact hd)

/-- In every state reached from the initial page, a message on display is one
of the two messages of the program. -/
theorem run_knownDisplay (evs : List Event) :
    ∀ st st1 : App, run st evs = some st1 → knownDisplay st → knownDisplay st1 := by
  induction evs with
  | nil => intro st st1 h hk; simp [run] at h; subst h; exact hk
  | cons e es ih =>
    intro st st1 h hk
    cases hs : step st e with
    | none => simp [run, hs] at h
    | some st2 =>
      simp [run, hs] at h
      exact ih st2 st1 h (step_knownDisplay st st2 e hs hk)

/-- The branches of `calculateScore`, in order.  If the exam score fails
`validateJambInput`, the exam-score message is shown and the run returns.
Otherwise, if `validateGradeSelections` fails, the incomplete-grades message is
shown and the run returns.  Otherwise `showResult` is called with the total and
`showError` is not; the result markup is written when the total is a number.
A message on display is always one of the two fixed messages. -/
theorem calculateScore_branches (st : App) :
    ((validateJambInput (readJamb st) st).1 = false →
        calculateScore st = (Outcome.scoreError, hideLoading (showError scoreMessage st))
        ∧ ∀ d, st.resultDiv = some d →
            (calculateScore st).2.resultDiv =
              some { innerHTML := Html.text scoreMessage,
                     className := ["result-display", "error", "show"] })
    ∧ ((validateJambInput (readJamb st) st).1 = true →
        (validateGradeSelections st.gradeSelects st).1 = false →
        calculateScore st = (Outcome.gradesError, hideLoading (showError gradesMessage st))
        ∧ ∀ d, st.resultDiv = some d →
            (calculateScore st).2.resultDiv =
              some { innerHTML := Html.text gradesMessage,
                     className := ["result-display", "error", "show"] })
    ∧ ((validateJambInput (readJamb st) st).1 = true →
        (validateGradeSelections st.gradeSelects st).1 = true →
        (calculateScore st).1
            = Outcome.result (totalOf st.gradePoints (readJamb st) st.gradeSelects)
        ∧ (calculateScore st).2.timers = st.timers
        ∧ ((calculateScore st).2.resultDiv = st.resultDiv
            ∨ ∃ t jp op, (calculateScore st).2.resultDiv =
                some { innerHTML := Html.result t (readJamb st) jp op,
                       className := ["result-display", "show"] })
        ∧ ∀ t d, totalOf st.gradePoints (readJamb st) st.gradeSelects = Value.num (JSNum.fin t) →
            st.resultDiv = some d →
            (calculateScore st).2.resultDiv =
              some { innerHTML := Html.result (JSNum.fin t) (readJamb st)
                       (jambPercentOf (readJamb st))
                       (olevelPointsOf st.gradePoints st.gradeSelects),
                     className := ["result-display", "show"] })
    ∧ ((∃ total, (calculateScore st).1 = Outcome.result total)
        ↔ (validateJambInput (readJamb st) st).1 = true
            ∧ (validateGradeSelections st.gradeSelects st).1 = true)
    ∧ (knownDisplay st → knownDisplay (calculateScore st).2)
    ∧ (∀ (evs : List Event) (st1 : App), run initialApp evs = some st1 → knownDisplay st1)
    ∧ readJamb minusFiveApp = JSNum.fin (-5)
    ∧ "" ∈ minusFiveApp.gradeSelects
    ∧ calculateScore minusFiveApp
        = (Outcome.scoreError, hideLoading (showError scoreMessage minusFiveApp)) := by
  have hscore : ∀ s : App, (validateJambInput (readJamb s) s).1 = false →
      calculateScore s = (Outcome.scoreError, hideLoading (showError scoreMessage s)) := by
    intro s h1
    rw [calculateScore_eq, if_pos h1]
  have hm5 : readJamb minusFiveApp = JSNum.fin (-5) := by
    simp [readJamb, minusFiveApp, toNumber_minus_5]
  refine ⟨?_, ?_, ?_, calculateScore_result_iff st, calculateScore_knownDisplay st, ?_, hm5,
    by decide, ?_⟩
  · intro h1
    refine ⟨hscore st h1, fun d hd => ?_⟩
    rw [hscore st h1]
    simpa using showError_resultDiv scoreMessage st d hd
  · intro h1 h2
    have hc : calculateScore st
        = (Outcome.gradesError, hideLoading (showError gradesMessage st)) := by
      rw [calculateScore_eq, if_neg (by simp [h1]), if_pos h2]
    refine ⟨hc, fun d hd => ?_⟩
    rw [hc]
    simpa using showError_resultDiv gradesMessage st d hd
  · intro h1 h2
    have hc := calculateScore_eq st
    rw [if_neg (by simp [h1]), if_neg (by simp [h2])] at hc
    cases hs : showResult (totalOf st.gradePoints (readJamb st) st.gradeSelects) (readJamb st)
        st.gradeSelects st with
    | none =>
      rw [hs] at hc
      refine ⟨by rw [hc], by rw [hc], Or.inl (by rw [hc]), ?_⟩
      intro t d ht _
      obtain ⟨st3, h3, _⟩ := showResult_num t (readJamb st) st.gradeSelects st
      rw [ht, h3] at hs
      exact absurd hs (by simp)
    | some st3 =>
      rw [hs] at hc
      obtain ⟨htm, _, hdisp⟩ := showResult_some _ _ _ _ _ hs
      refine ⟨by rw [hc], by rw [hc]; simpa using htm, ?_, ?_⟩
      · rcases hdisp with he | ⟨t, jp, op, he⟩
        · exact Or.inl (by rw [hc]; simpa using he)
        · exact Or.inr ⟨t, jp, op, by rw [hc]; simpa using he⟩
      · intro t d ht hd
        obtain ⟨st4, h4, _, _, _, hshow⟩ := showResult_num t (readJamb st) st.gradeSelects st
        rw [ht] at hs
        rw [h4] at hs
        injection hs with hs
        subst hs
        rw [hc]
        simpa using hshow d hd
  · intro evs st1 h
    refine run_knownDisplay evs initialApp st1 h ?_
    intro msg cls hd
    simp [initialApp] at hd
  · refine hscore minusFiveApp ?_
    cases hv : (validateJambInput (readJamb minusFiveApp) minusFiveApp).1
    · rfl
    · obtain ⟨q, hq, hq0, _⟩ := (validateJambInput_fst _ _).mp hv
      rw [hm5] at hq
      injection hq with hq
      subst hq
      norm_num at hq0

/-- A run in which both validators pass and the total is not a number: the
call of `showResult` raises, so the page is left exactly as it was. -/
theorem calculateScore_raises (st : App) (total : Value)
    (h1 : (validateJambInput (readJamb st) st).1 = true) (h2 : "" ∉ st.gradeSelects)
    (ht : totalOf st.gradePoints (readJamb st) st.gradeSelects = total)
    (hn : ∀ x, total ≠ Value.num x) :
    calculateScore st = (Outcome.result total, st) := by
  have h3 : (validateGradeSelections st.gradeSelects st).1 = true := by
    cases hv : (validateGradeSelections st.gradeSelects st).1
    · exact absurd ((validateGradeSelections_fst _ st).mp hv) h2
    · rfl
  have hs : showResult total (readJamb st) st.gradeSelects st = none := by
    unfold showResult
    cases total with
    | num x => exact absurd rfl (hn x)
    | str => rfl
    | obj => rfl
    | undefined => rfl
  rw [calculateScore_eq, if_neg (by simp [h1]), if_neg (by simp [h3]), ht, hs]

/-- The total on a page with 250 typed and `constructor` among the grades. -/
theorem totalOf_inherited_name (st : App) (hj : st.jambInput = some "250")
    (hg : st.gradeSelects = ["constructor", "A1", "A1", "A1", "A1"])
    (htable : st.gradePoints = gradePoints) :
    readJamb st = JSNum.fin 250
    ∧ (validateJambInput (readJamb st) st).1 = true
    ∧ "" ∉ st.gradeSelects
    ∧ totalOf st.gradePoints (readJamb st) st.gradeSelects = Value.str := by
  have hr : readJamb st = JSNum.fin 250 := by simp [readJamb, hj, toNumber_250]
  have hsum : olevelPointsOf gradePoints ["constructor", "A1", "A1", "A1", "A1"] = Value.str := by
    decide
  refine ⟨hr, (validateJambInput_fst _ st).mpr ⟨250, hr, by norm_num, by norm_num⟩,
    by rw [hg]; decide, ?_⟩
  rw [hr, hg, htable]
  show Value.add _ (olevelPointsOf gradePoints ["constructor", "A1", "A1", "A1", "A1"]) = _
  rw [hsum]; rfl

/-- C8, evaluated where it fails: on the page in the loading state with 250
typed and `constructor` in the first grade selector, both validators succeed,
the total is a string, `showResult` raises at `total.toFixed`, and the run
ends with none of the three outcomes: no result and no message is on display,
no error-clear timer is scheduled, and `hideLoading` is not reached, so the
button stays disabled with the label `Calculating...`. -/
theorem validators_pass_without_result :
    (validateJambInput (readJamb inheritedNameApp) inheritedNameApp).1 = true
    ∧ (validateGradeSelections inheritedNameApp.gradeSelects inheritedNameApp).1 = true
    ∧ totalOf inheritedNameApp.gradePoints (readJamb inheritedNameApp)
        inheritedNameApp.gradeSelects = Value.str
    ∧ showResult Value.str (readJamb inheritedNameApp) inheritedNameApp.gradeSelects
        inheritedNameApp = none
    ∧ (calculateScore inheritedNameApp).2.resultDiv
        = some { innerHTML := Html.empty, className := ["result-display"] }
    ∧ (calculateScore inheritedNameApp).2.timers = []
    ∧ (calculateScore inheritedNameApp).2.calculateBtn
        = some { loading := true, disabled := true, textContent := "Calculating..." } := by
  obtain ⟨_, h1, h2, ht⟩ := totalOf_inherited_name inheritedNameApp rfl rfl rfl
  have hc := calculateScore_raises inheritedNameApp Value.str h1 h2 ht (by simp)
  have h3 : (validateGradeSelections inheritedNameApp.gradeSelects inheritedNameApp).1 = true := by
    cases hv : (validateGradeSelections inheritedNameApp.gradeSelects inheritedNameApp).1
    · exact absurd ((validateGradeSelections_fst _ _).mp hv) h2
    · rfl
  refine ⟨h1, h3, ht, rfl, ?_, ?_, ?_⟩ <;> rw [hc] <;> rfl

/-- The two comparisons of `updateFormValidity` hold together exactly on a
finite value in [0, 400]. -/
theorem ge_zero_le_400 (x : JSNum) :
    (x.ge (JSNum.fin 0) = true ∧ x.le (JSNum.fin 400) = true)
      ↔ ∃ q : ℚ, x = JSNum.fin q ∧ 0 ≤ q ∧ q ≤ 400 := by
  cases x <;> simp [JSNum.ge, JSNum.le]

/-- The `every` of `updateFormValidity` holds exactly when no selector is empty. -/
theorem all_selected_iff (grades : List String) :
    grades.all (fun value => value != "") = true ↔ "" ∉ grades := by
  rw [List.all_eq_true]
  constructor
  · intro h he
    simpa using h "" he
  · intro h g hg
    have : g ≠ "" := fun e => h (e ▸ hg)
    simpa using this

/-- The button after `updateFormValidity` when the button and the field exist. -/
theorem updateFormValidity_button (st : App) (v : String) (b : Button)
    (hj : st.jambInput = some v) (hb : st.calculateBtn = some b) :
    (updateFormValidity st).calculateBtn
      = some { b with disabled :=
          !((v != "" && (toNumber v).ge (JSNum.fin 0) && (toNumber v).le (JSNum.fin 400))
            && st.gradeSelects.all (fun value => value != "")) } := by
  simp [updateFormValidity, hj, hb]

/-- Button enablement against the validators.  If `updateFormValidity` sets
`disabled` to false, then `calculateScore` on the same page passes
`validateJambInput(Number(v || 0))` and `validateGradeSelections` and goes on to
call `showResult` with the total.  Conversely, for a non-empty v a run that
reaches `showResult` has the button enabled; an empty v always disables the
button although it is read as 0 at submit time. -/
theorem enabled_button_validators (st : App) (v : String) (b : Button)
    (hj : st.jambInput = some v) (hb : st.calculateBtn = some b) :
    ((updateFormValidity st).calculateBtn = some { b with disabled := false } →
        (validateJambInput (readJamb st) st).1 = true
        ∧ (validateGradeSelections st.gradeSelects st).1 = true
        ∧ (calculateScore st).1
            = Outcome.result (totalOf st.gradePoints (readJamb st) st.gradeSelects))
    ∧ (v ≠ "" → (∃ total, (calculateScore st).1 = Outcome.result total) →
        (updateFormValidity st).calculateBtn = some { b with disabled := false })
    ∧ (v = "" →
        (updateFormValidity st).calculateBtn = some { b with disabled := true }
        ∧ readJamb st = JSNum.fin 0
        ∧ (validateJambInput (readJamb st) st).1 = true
        ∧ ("" ∉ st.gradeSelects → ∃ total, (calculateScore st).1 = Outcome.result total)) := by
  have hbtn := updateFormValidity_button st v b hj hb
  have hgrades : ∀ h : "" ∉ st.gradeSelects,
      (validateGradeSelections st.gradeSelects st).1 = true := by
    intro h
    cases hx : (validateGradeSelections st.gradeSelects st).1
    · exact absurd ((validateGradeSelections_fst _ st).mp hx) h
    · rfl
  refine ⟨?_, ?_, ?_⟩
  · intro he
    rw [hbtn] at he
    have hd : ((v != "" && (toNumber v).ge (JSNum.fin 0) && (toNumber v).le (JSNum.fin 400))
        && st.gradeSelects.all (fun value => value != "")) = true := by
      have := congrArg (Option.map Button.disabled) he
      simpa using this
    simp only [Bool.and_eq_true] at hd
    obtain ⟨⟨⟨hv, hge⟩, hle⟩, hall⟩ := hd
    have hne : v ≠ "" := by simpa using hv
    have hread : readJamb st = toNumber v := by simp [readJamb, hj, hne]
    have h1 : (validateJambInput (readJamb st) st).1 = true := by
      rw [hread]
      exact (validateJambInput_fst _ st).mpr ((ge_zero_le_400 _).mp ⟨hge, hle⟩)
    have hnone : "" ∉ st.gradeSelects := (all_selected_iff _).mp hall
    exact ⟨h1, hgrades hnone, calculateScore_result st h1 hnone⟩
  · intro hne hres
    obtain ⟨h1, h2⟩ := (calculateScore_result_iff st).mp hres
    have hread : readJamb st = toNumber v := by simp [readJamb, hj, hne]
    rw [hread] at h1
    obtain ⟨hge, hle⟩ := (ge_zero_le_400 _).mpr ((validateJambInput_fst _ st).mp h1)
    have hnone : "" ∉ st.gradeSelects := by
      intro he
      have := (validateGradeSelections_fst _ st).mpr he
      rw [h2] at this
      exact absurd this (by simp)
    have hall := (all_selected_iff _).mpr hnone
    rw [hbtn]
    simp [hne, hge, hle, hall]
  · intro hv
    subst hv
    have hread := readJamb_empty st hj
    have h1 : (validateJambInput (readJamb st) st).1 = true :=
      (validateJambInput_fst _ st).mpr ⟨0, hread, le_refl _, by norm_num⟩
    refine ⟨by rw [hbtn]; simp, hread, h1, fun hnone => ?_⟩
    exact (calculateScore_result_iff st).mpr ⟨h1, hgrades hnone⟩

/-- C10, evaluated where it fails: with 250 typed and `constructor` in the first
grade selector, `updateFormValidity` enables the button and both validators
pass, yet the submit produces no result: after the submit, the 300 ms wait and
the deferred `calculateScore`, the result area is empty and the button is still
disabled with the label `Calculating...`. -/
theorem enabled_button_without_result :
    (updateFormValidity inheritedNameIdleApp).calculateBtn
        = some { loading := false, disabled := false, textContent := "Calculate Score" }
    ∧ (validateJambInput (readJamb inheritedNameIdleApp) inheritedNameIdleApp).1 = true
    ∧ (validateGradeSelections inheritedNameIdleApp.gradeSelects inheritedNameIdleApp).1 = true
    ∧ (calculateScore inheritedNameIdleApp).2.resultDiv = inheritedNameIdleApp.resultDiv
    ∧ run inheritedNameIdleApp [Event.submit, Event.wait 300, Event.fire]
        = some { inheritedNameApp with now := 300 }
    ∧ ({ inheritedNameApp with now := 300 } : App).resultDiv
        = some { innerHTML := Html.empty, className := ["result-display"] }
    ∧ ({ inheritedNameApp with now := 300 } : App).calculateBtn
        = some { loading := true, disabled := true, textContent := "Calculating..." } := by
  obtain ⟨_, h1, h2, ht⟩ := totalOf_inherited_name inheritedNameIdleApp rfl rfl rfl
  have hc := calculateScore_raises inheritedNameIdleApp Value.str h1 h2 ht (by simp)
  have h3 : (validateGradeSelections inheritedNameIdleApp.gradeSelects
      inheritedNameIdleApp).1 = true := by
    cases hv : (validateGradeSelections inheritedNameIdleApp.gradeSelects
      inheritedNameIdleApp).1
    · exact absurd ((validateGradeSelections_fst _ _).mp hv) h2
    · rfl
  have hbtn : (updateFormValidity inheritedNameIdleApp).calculateBtn
      = some { loading := false, disabled := false, textContent := "Calculate Score" } := by
    simp [updateFormValidity, inheritedNameIdleApp, initialApp, toNumber_250, JSNum.ge, JSNum.le]
    norm_num
  obtain ⟨_, k1, k2, kt⟩ := totalOf_inherited_name { inheritedNameApp with now := 300 }
    rfl rfl rfl
  have hk := calculateScore_raises { inheritedNameApp with now := 300 } Value.str k1 k2 kt
    (by simp)
  have hrun : run inheritedNameIdleApp [Event.submit, Event.wait 300, Event.fire]
      = some (calculateScore { inheritedNameApp with now := 300 }).2 := by
    simp [run, step, handleFormSubmit, showLoading, setTimeout, inheritedNameIdleApp,
      inheritedNameApp, initialApp, nextTimer, runTask]
  refine ⟨hbtn, h1, h3, by rw [hc], ?_, rfl, rfl⟩
  rw [hrun, hk]

/-! ## Timers and the error display (C9) -/

@[simp] theorem showError_now (message : String) (st : App) :
    (showError message st).now = st.now := by
  unfold showError; cases st.resultDiv <;> rfl

/-- The timers after `showError` on a page with a result area. -/
theorem showError_timers (message : String) (st : App) (d : ResultDiv)
    (h : st.resultDiv = some d) :
    (showError message st).timers
      = st.timers ++ [{ due := st.now + 5000, task := Task.clearError }] := by
  simp [showError, h, setTimeout]

@[simp] theorem showLoading_now (st : App) : (showLoading st).now = st.now := by
  unfold showLoading; cases hb : st.calculateBtn <;> cases hr : st.resultDiv <;> simp [hr]

@[simp] theorem clearErrorCallback_now (st : App) : (clearErrorCallback st).now = st.now := by
  unfold clearErrorCallback; cases st.resultDiv <;> simp; split <;> rfl

@[simp] theorem calculateScore_now (st : App) : (calculateScore st).2.now = st.now := by
  rw [calculateScore_eq]
  split_ifs
  · simp
  · simp
  · cases hs : showResult (totalOf st.gradePoints (readJamb st) st.gradeSelects)
        (readJamb st) st.gradeSelects st with
    | none => simp
    | some st3 => simpa using (showResult_some _ _ _ _ _ hs).2.1

/-- The clock never runs backwards in a step. -/
theorem step_now_le (st st1 : App) (e : Event) (h : step st e = some st1) :
    st.now ≤ st1.now := by
  cases e with
  | submit => simp [step, handleFormSubmit, setTimeout] at h; subst h; simp
  | input v =>
    cases hj : st.jambInput <;> simp [step, hj] at h
    subst h; simp
  | change i grade =>
    simp [step] at h
    obtain ⟨_, h⟩ := h
    subst h; simp
  | wait d =>
    simp [step] at h
    obtain ⟨_, h⟩ := h
    subst h; simp
  | fire =>
    cases hn : nextTimer st.timers with
    | none => simp [step, hn] at h
    | some t =>
      simp [step, hn] at h
      obtain ⟨_, h⟩ := h
      subst h
      cases t.task <;> simp [runTask]

/-- The clock never runs backwards in a run. -/
theorem run_now_le (evs : List Event) :
    ∀ st st1 : App, run st evs = some st1 → st.now ≤ st1.now := by
  induction evs with
  | nil => intro st st1 h; simp [run] at h; subst h; exact le_refl _
  | cons e es ih =>
    intro st st1 h
    cases hs : step st e with
    | none => simp [run, hs] at h
    | some st2 =>
      simp [run, hs] at h
      exact le_trans (step_now_le st st2 e hs) (ih st2 st1 h)

/-- The timer that fires next is one of the pending timers. -/
theorem nextTimer_mem (ts : List Timer) (t : Timer) (h : nextTimer ts = some t) : t ∈ ts := by
  induction ts generalizing t with
  | nil => simp [nextTimer] at h
  | cons a as ih =>
    unfold nextTimer at h
    cases hn : nextTimer as with
    | none =>
      rw [hn] at h
      simp at h
      subst h
      exact List.mem_cons_self _ _
    | some u =>
      rw [hn] at h
      simp only at h
      split_ifs at h
      · simp at h; subst h; exact List.mem_cons_self _ _
      · simp at h; subst h; exact List.mem_cons_of_mem _ (ih u hn)

/-- While every pending timer is an error-clear timer due at `T` or later, no
event other than a submit changes the result area before time `T`. -/
theorem display_kept_before (T : Nat) (disp : Option ResultDiv) (evs : List Event) :
    ∀ s s1 : App, s.resultDiv = disp →
      (∀ tm ∈ s.timers, tm.task = Task.clearError ∧ T ≤ tm.due) →
      Event.submit ∉ evs → run s evs = some s1 → s1.now < T → s1.resultDiv = disp := by
  induction evs with
  | nil => intro s s1 hd _ _ hr _; simp [run] at hr; subst hr; exact hd
  | cons e es ih =>
    intro s s1 hd ht hno hr hT
    cases hs : step s e with
    | none => simp [run, hs] at hr
    | some s2 =>
      simp [run, hs] at hr
      have hes : Event.submit ∉ es := fun hm => hno (List.mem_cons_of_mem _ hm)
      have hnow : s.now < T :=
        lt_of_le_of_lt (le_trans (step_now_le s s2 e hs) (run_now_le es s2 s1 hr)) hT
      cases e with
      | submit => exact absurd (List.mem_cons_self _ _) hno
      | input v =>
        cases hj : s.jambInput <;> simp [step, hj] at hs
        subst hs
        exact ih _ s1 (by simpa using hd) (by simpa using ht) hes hr hT
      | change i grade =>
        simp [step] at hs
        obtain ⟨_, hs⟩ := hs
        subst hs
        exact ih _ s1 (by simpa using hd) (by simpa using ht) hes hr hT
      | wait d =>
        simp [step] at hs
        obtain ⟨_, hs⟩ := hs
        subst hs
        exact ih { s with now := s.now + d } s1 hd ht hes hr hT
      | fire =>
        cases hn : nextTimer s.timers with
        | none => simp [step, hn] at hs
        | some t =>
          simp [step, hn] at hs
          have hdue := (ht t (nextTimer_mem _ _ hn)).2
          omega

/-- C9 as stated fails: the page is submitted at 0 and again at 4900 with no
grade selected.  The first deferred `calculateScore` shows an error at 300 and
schedules a clear-timer for 5300; nothing cancels it.  The second shows an
error at 5200 (clear-timer for 10200).  At 5300 the first timer fires, finds
the class `error` and empties the result area: the error shown at 5200 is
removed after 100 ms, with no submit in between. -/
theorem earlier_timer_clears_later_error :
    (run initialApp [Event.submit, Event.wait 300, Event.fire, Event.wait 4600, Event.submit,
        Event.wait 300]).map (fun s => (s.now, s.resultDiv, s.timers))
      = some (5200, some { innerHTML := Html.empty, className := ["result-display"] },
          [{ due := 5300, task := Task.clearError }, { due := 5200, task := Task.calculate }])
    ∧ (run initialApp [Event.submit, Event.wait 300, Event.fire, Event.wait 4600, Event.submit,
        Event.wait 300, Event.fire]).map (fun s => (s.now, s.resultDiv, s.timers))
      = some (5200,
          some { innerHTML := Html.text gradesMessage,
                 className := ["result-display", "error", "show"] },
          [{ due := 5300, task := Task.clearError }, { due := 10200, task := Task.clearError }])
    ∧ (run initialApp [Event.submit, Event.wait 300, Event.fire, Event.wait 4600, Event.submit,
        Event.wait 300, Event.fire, Event.wait 100, Event.fire]).map
          (fun s => (s.now, s.resultDiv, s.timers))
      = some (5300, some { innerHTML := Html.empty, className := ["result-display"] },
          [{ due := 10200, task := Task.clearError }])
    ∧ Event.submit ∉ [Event.wait 100, Event.fire] := by
  refine ⟨by decide, by decide, by decide, by decide⟩

/-- C9, amended: let `showError` run at time t on a page with a result area,
at a moment when every other pending timer is an error-clear timer due at
t + 5000 or later (in particular when none is pending), and let s0 be the page
as the callback leaves it (result area and timers as `showError` left them).  Then after any sequence of events without a submit that ends before
t + 5000, the result area still shows that error message.  The program never
cancels a timer, so the condition on the pending timers cannot be dropped. -/
theorem error_kept_until_own_timer (st s0 s1 : App) (d : ResultDiv) (message : String)
    (evs : List Event)
    (hd : st.resultDiv = some d)
    (hpending : ∀ tm ∈ st.timers, tm.task = Task.clearError ∧ st.now + 5000 ≤ tm.due)
    (h0d : s0.resultDiv = (showError message st).resultDiv)
    (h0t : s0.timers = (showError message st).timers)
    (hno : Event.submit ∉ evs)
    (hrun : run s0 evs = some s1)
    (hbefore : s1.now < st.now + 5000) :
    s1.resultDiv
      = some { innerHTML := Html.text message,
               className := ["result-display", "error", "show"] } := by
  rw [showError_resultDiv message st d hd] at h0d
  rw [showError_timers message st d hd] at h0t
  refine display_kept_before (st.now + 5000) _ evs s0 s1 h0d ?_ hno hrun hbefore
  intro tm htm
  rw [h0t, List.mem_append] at htm
  rcases htm with h | h
  · exact hpending tm h
  · simp at h
    subst h
    exact ⟨rfl, le_refl _⟩

/-- C9, amended, on the initial page: an error shown at time 0 with no timer
pending is still on display 4999 ms later, after an edit of a grade selector. -/
theorem error_kept_until_own_timer_witness :
    ∃ s1 : App,
      run (hideLoading (showError gradesMessage initialApp))
          [Event.wait 2000, Event.change 0 "A1", Event.wait 2999] = some s1
      ∧ s1.now = 4999
      ∧ s1.resultDiv
          = some { innerHTML := Html.text gradesMessage,
                   className := ["result-display", "error", "show"] } := by
  have hrun : (run (hideLoading (showError gradesMessage initialApp))
      [Event.wait 2000, Event.change 0 "A1", Event.wait 2999]).isSome = true := by decide
  obtain ⟨s1, hs1⟩ := Option.isSome_iff_exists.mp hrun
  have hnow : (run (hideLoading (showError gradesMessage initialApp))
      [Event.wait 2000, Event.change 0 "A1", Event.wait 2999]).map App.now = some 4999 := by
    decide
  have h4999 : s1.now = 4999 := by
    rw [hs1] at hnow
    simpa using hnow
  exact ⟨s1, hs1, h4999,
    error_kept_until_own_timer initialApp (hideLoading (showError gradesMessage initialApp)) s1
      { innerHTML := Html.empty, className := ["result-display"] } gradesMessage
      [Event.wait 2000, Event.change 0 "A1", Event.wait 2999]
      rfl (by decide) (by simp) (by simp) (by decide) hs1
      (by rw [h4999]; decide)⟩

end NewCal
